import Mathlib

/-!
Verification of the session-and-coordination core of the `honeypot` service:
in-memory bounded token stores with maintenance sweeps (`app/security.py`),
the anti-forgery (CSRF) token rotation protocol, the refresh-credential
endpoint (`app/routers/auth.py`), the sliding-window rate limiter, the
task tracker (`app/state.py`) and the route-metrics collector
(`app/metrics.py`), shallowly embedded over association lists that model
Python's insertion-ordered dictionaries.
-/

namespace Honeypot

/-- Timestamps: both `time.time()` values and `datetime.utcnow()` values are
modelled on a single integer timeline (seconds). -/
abbrev Time := Int

/-! ### Python `dict` model: insertion-ordered association lists -/

/-- `store[k]` lookup returning `Option` (a `dict.get`). -/
def dget {κ α : Type} [DecidableEq κ] (k : κ) (st : List (κ × α)) : Option α :=
  (st.find? (fun kv => kv.1 = k)).map (·.2)

/-- `store[k] = v`: overwrite in place when the key is present (Python dicts
keep the original position), append otherwise. -/
def dinsert {κ α : Type} [DecidableEq κ] (k : κ) (v : α) :
    List (κ × α) → List (κ × α)
  | [] => [(k, v)]
  | kv :: tl => if kv.1 = k then (k, v) :: tl else kv :: dinsert k v tl

/-- `store.pop(k, None)`: remove the entry for `k`, keeping order. -/
def dpop {κ α : Type} [DecidableEq κ] (k : κ) :
    List (κ × α) → List (κ × α)
  | [] => []
  | kv :: tl => if kv.1 = k then tl else kv :: dpop k tl

/-- The key list of a store. -/
abbrev keys {κ α : Type} (st : List (κ × α)) : List κ := st.map (·.1)

/-- Python `str.upper()` (ASCII), kernel-computable (Lean's own
`String.toUpper` does not reduce in the kernel). -/
def pyUpper (s : String) : String := ⟨s.data.map Char.toUpper⟩

/-- Python `str.lower()` (ASCII), kernel-computable. -/
def pyLower (s : String) : String := ⟨s.data.map Char.toLower⟩

/-- Python `str.strip()`: drop whitespace from both ends. -/
def pyStrip (s : String) : String :=
  ⟨((s.data.dropWhile (·.isWhitespace)).reverse.dropWhile
    (·.isWhitespace)).reverse⟩

/-! ### Token-store entries and maintenance sweeps (`app/security.py`) -/

/-- An entry of `ISSUED_REFRESH_TOKENS` / `ISSUED_CSRF_TOKENS`:
`{"email": ..., "exp": ..., "created_at": ...}`. -/
structure TokenData where
  email : String
  exp : Time
  created_at : Time
deriving DecidableEq, Repr

/-- Second phase shared by all sweeps: when the store holds more than
`maxItems` entries, sort by descending recency (Python
`sorted(..., key=recency, reverse=True)`), keep the first `maxItems`
keys and drop the rest. -/
def capacityEvict {κ α : Type} [DecidableEq κ] (recency : α → Time)
    (maxItems : Nat) (pruned : List (κ × α)) : List (κ × α) :=
  if pruned.length ≤ maxItems then pruned
  else
    pruned.filter (fun kv => kv.1 ∈
      (((pruned.mergeSort (fun a b => recency b.2 ≤ recency a.2)).take
        maxItems).map (·.1)))

/-- `_cleanup_token_store`: drop entries whose `exp` lies strictly in the
past (`now_dt > exp`), then keep at most `max_items` entries, most recent
`created_at` first. -/
def cleanup_token_store {κ : Type} [DecidableEq κ]
    (store : List (κ × TokenData)) (now_dt : Time) (max_items : Nat) :
    List (κ × TokenData) :=
  capacityEvict (·.created_at) max_items
    (store.filter (fun kv => ¬ now_dt > kv.2.exp))

/-- `kv[1][-1] if kv[1] else 0.0`: the recency key used by
`_cleanup_attempt_store`. -/
def lastOrZero (l : List Time) : Time := l.getLastD 0

/-- `_cleanup_attempt_store`: per key, keep timestamps `ts ≥ cutoff` where
`cutoff = now - max(1, ttl)`, dropping keys whose list becomes empty; then
keep at most `max_keys` keys, most recent last-timestamp first. -/
def cleanup_attempt_store (store : List (String × List Time)) (now_ts : Time)
    (stale_ttl_seconds : Int) (max_keys : Nat) : List (String × List Time) :=
  capacityEvict lastOrZero max_keys
    ((store.map (fun kv =>
        (kv.1, kv.2.filter (fun ts => ts ≥ now_ts - max 1 stale_ttl_seconds)))
      ).filter (fun kv => ¬ kv.2 = []))

/-! ### JWT model -/

/-- The decoded claim set of a JWT.  `create_access_token` sets
`email`, `name`, `role`, `exp`; `create_refresh_token` sets `email`,
`type`, `exp`.  Absent claims are `none` (`payload.get(...)`). -/
structure JwtPayload where
  email : Option String := none
  name : Option String := none
  role : Option String := none
  typ : Option String := none
  exp : Time
deriving DecidableEq, Repr

/-- A credential string: either a well-formed JWT carrying a payload and
the secret it was signed with, or a non-JWT string. -/
inductive Jwt where
  | signed (payload : JwtPayload) (secret : String)
  | garbage (s : String)
deriving DecidableEq, Repr

/-- Outcomes of `jwt.decode`: `ExpiredSignatureError` or
`InvalidTokenError`. -/
inductive JwtError where
  | expired
  | invalid
deriving DecidableEq, Repr

/-- `jwt.decode(token, secret, algorithms=[...])`: malformed input or a
wrong signature raises `InvalidTokenError`; an `exp` claim strictly in the
past raises `ExpiredSignatureError`; otherwise the payload is returned. -/
def jwtDecode (secret : String) (tok : Jwt) (now : Time) :
    Except JwtError JwtPayload :=
  match tok with
  | .garbage _ => .error .invalid
  | .signed p sec =>
      if sec ≠ secret then .error .invalid
      else if p.exp < now then .error .expired
      else .ok p

/-- `create_access_token(email, name, role)`: signed claims with
`exp = now + JWT_EXPIRE_HOURS` (in seconds). -/
def create_access_token (secret : String) (accessTTL : Int)
    (email name role : String) (now : Time) : Jwt :=
  .signed { email := some email, name := some name, role := some role,
            exp := now + accessTTL } secret

/-! ### Security-module state (`app/security.py` globals) -/

/-- Environment-derived configuration of `app/security.py`.  The source
clamps: `SECURITY_CLEANUP_INTERVAL_SECONDS = max(5, ...)`,
`RATE_LIMIT_TRACK_TTL_SECONDS = max(600, ...)`,
`MAX_REFRESH_TOKENS = max(100, ...)`, `MAX_CSRF_TOKENS = max(200, ...)`,
`MAX_LOGIN_ATTEMPT_KEYS = max(100, ...)`, `MAX_API_RATE_KEYS = max(100, ...)`;
those lower bounds are recorded as fields so that clamped values can be
stated as hypotheses where needed. -/
structure SecConfig where
  cleanupInterval : Int
  rateLimitTrackTTL : Int
  maxRefreshTokens : Nat
  maxCsrfTokens : Nat
  maxLoginAttemptKeys : Nat
  maxApiRateKeys : Nat
  csrfExpireMinutes : Int := 30
deriving Repr

/-- The mutable module-level stores of `app/security.py`. -/
structure SecState where
  refreshStore : List (Jwt × TokenData)
  csrfStore : List (String × TokenData)
  loginAttempts : List (String × List Time)
  apiAttempts : List (String × List Time)
  lastCleanup : Time
deriving Repr

/-- `run_security_maintenance(force=False)`: skipped when the configured
interval has not elapsed since the last sweep; otherwise sweeps all four
stores and records the sweep time. -/
def run_security_maintenance (cfg : SecConfig) (s : SecState) (now : Time) :
    SecState :=
  if now - s.lastCleanup < cfg.cleanupInterval then s
  else
    { refreshStore :=
        cleanup_token_store s.refreshStore now cfg.maxRefreshTokens,
      csrfStore := cleanup_token_store s.csrfStore now cfg.maxCsrfTokens,
      loginAttempts := cleanup_attempt_store s.loginAttempts now
        cfg.rateLimitTrackTTL cfg.maxLoginAttemptKeys,
      apiAttempts := cleanup_attempt_store s.apiAttempts now
        cfg.rateLimitTrackTTL cfg.maxApiRateKeys,
      lastCleanup := now }

/-! ### CSRF token operations -/

/-- The `HTTPException(403)` variants raised by the CSRF helpers,
distinguished by their `detail` message. -/
inductive CsrfErr where
  | missing
  | invalid
  | expired
  | mismatch
deriving DecidableEq, Repr

/-- Every CSRF failure is HTTP 403 Forbidden. -/
def CsrfErr.status : CsrfErr → Nat := fun _ => 403

/-- `create_csrf_token(email)`: run maintenance, then store a fresh random
token (supplied here as the parameter `freshTok`, modelling
`secrets.token_urlsafe(32)`) with
`exp = now + CSRF_TOKEN_EXPIRE_MINUTES` and `created_at = now`. -/
def create_csrf_token (cfg : SecConfig) (s : SecState) (email : String)
    (now : Time) (freshTok : String) : String × SecState :=
  let s := run_security_maintenance cfg s now
  let entry : TokenData :=
    { email := email, exp := now + cfg.csrfExpireMinutes * 60,
      created_at := now }
  (freshTok, { s with csrfStore := dinsert freshTok entry s.csrfStore })

/-- `verify_csrf_token(token, email)`: run maintenance, then 403 if the
token is unknown; 403 and *remove the token* if it is expired; 403 and
leave the store untouched if the stored identity differs from `email`;
otherwise succeed without modifying the store. -/
def verify_csrf_token (cfg : SecConfig) (s : SecState) (token email : String)
    (now : Time) : Except CsrfErr Unit × SecState :=
  let s := run_security_maintenance cfg s now
  match dget token s.csrfStore with
  | none => (.error .invalid, s)
  | some d =>
      if now > d.exp then
        (.error .expired, { s with csrfStore := dpop token s.csrfStore })
      else if d.email ≠ email then (.error .mismatch, s)
      else (.ok (), s)

/-- `invalidate_csrf_token(token)`: unconditional `pop`. -/
def invalidate_csrf_token (s : SecState) (token : String) : SecState :=
  { s with csrfStore := dpop token s.csrfStore }

/-- `rotate_csrf_token(token, email)`: verify (exceptions propagate,
leaving the store as the failed verification left it), invalidate the old
token, issue a fresh one. -/
def rotate_csrf_token (cfg : SecConfig) (s : SecState) (token email : String)
    (now : Time) (freshTok : String) : Except CsrfErr String × SecState :=
  match verify_csrf_token cfg s token email now with
  | (.error e, s') => (.error e, s')
  | (.ok _, s') =>
      let s' := invalidate_csrf_token s' token
      let (t, s') := create_csrf_token cfg s' email now freshTok
      (.ok t, s')

/-! ### Refresh tokens and access-credential verification -/

/-- `create_refresh_token(email)`: run maintenance, sign
`{email, type: "refresh", exp: now + JWT_REFRESH_EXPIRE_HOURS}` and record
the token in `ISSUED_REFRESH_TOKENS`. -/
def create_refresh_token (cfg : SecConfig) (secret : String)
    (refreshTTL : Int) (s : SecState) (email : String) (now : Time) :
    Jwt × SecState :=
  let s := run_security_maintenance cfg s now
  let tok : Jwt :=
    .signed { email := some email, typ := some "refresh",
              exp := now + refreshTTL } secret
  let entry : TokenData :=
    { email := email, exp := now + refreshTTL, created_at := now }
  (tok, { s with refreshStore := dinsert tok entry s.refreshStore })

/-- `revoke_refresh_token(token)` / the `logout` endpoint: unconditional
`pop` from the refresh store. -/
def revoke_refresh_token (s : SecState) (token : Jwt) : SecState :=
  { s with refreshStore := dpop token s.refreshStore }

/-- `verify_token(token)` of `app/security.py`: pure `jwt.decode` mapped to
HTTP 401 on failure.  The module state is a parameter (the function lives in
the module holding the stores) but the source body never reads it. -/
def verify_token (secret : String) (_s : SecState) (tok : Jwt) (now : Time) :
    Except JwtError JwtPayload :=
  jwtDecode secret tok now

/-- Both `verify_token` failures are HTTP 401 Unauthorized. -/
def JwtError.status : JwtError → Nat := fun _ => 401

/-- The `HTTPException(401)` variants raised by the `/api/auth/refresh`
endpoint, distinguished by their `detail` message. -/
inductive RefreshErr where
  | notIssued
  | expired
  | invalid
  | badType
  | unknownUser
deriving DecidableEq, Repr

/-- Every refresh failure is HTTP 401 Unauthorized. -/
def RefreshErr.status : RefreshErr → Nat := fun _ => 401

/-- A `MOCK_USERS` entry (password omitted; the refresh path reads only
`name` and `role`). -/
structure UserRec where
  name : String
  role : String
deriving DecidableEq, Repr

/-- `refresh_access_token` (`POST /api/auth/refresh`): 401 unless the
literal token is a key of `ISSUED_REFRESH_TOKENS`; then `jwt.decode`
(expiry also pops the token); 401 unless the `type` claim is `"refresh"`;
401 unless the `email` claim is truthy and a known user; on success mint a
fresh access credential. -/
def refresh_access_token (secret : String) (accessTTL : Int)
    (users : List (String × UserRec)) (store : List (Jwt × TokenData))
    (tok : Jwt) (now : Time) :
    Except RefreshErr Jwt × List (Jwt × TokenData) :=
  if (dget tok store).isNone then (.error .notIssued, store)
  else
    match jwtDecode secret tok now with
    | .error .expired => (.error .expired, dpop tok store)
    | .error .invalid => (.error .invalid, store)
    | .ok payload =>
        if payload.typ ≠ some "refresh" then (.error .badType, store)
        else
          match payload.email with
          | none => (.error .unknownUser, store)
          | some em =>
              if em = "" then (.error .unknownUser, store)
              else
                match dget em users with
                | none => (.error .unknownUser, store)
                | some u =>
                    (.ok (create_access_token secret accessTTL em u.name
                      u.role now), store)

/-! ### Sliding-window rate limiter -/

/-- `attempts_store[key]` under `defaultdict(list)`: a missing key reads as
`[]`. -/
def ddgetList (k : String) (st : List (String × List Time)) : List Time :=
  (dget k st).getD []

/-- `_check_sliding_window(store, key, limit=..., window_seconds=...)`:
run maintenance, prune the key's timestamps to the window, reject with
`retry_after = max(1, window - (now - oldest))` when `limit` timestamps
remain, else record `now` and accept.  The `none` result models the
`IndexError` Python would raise when `limit = 0` finds an empty list. -/
def check_sliding_window (cfg : SecConfig) (s : SecState) (key : String)
    (limit : Nat) (window_seconds : Int) (now : Time) :
    Option ((Bool × Int) × SecState) :=
  let s := run_security_maintenance cfg s now
  let pruned := (ddgetList key s.apiAttempts).filter
    (fun ts => now - ts < window_seconds)
  if pruned.length ≥ limit then
    match pruned with
    | [] => none
    | oldest :: _ =>
        let retry_after := max 1 (window_seconds - (now - oldest))
        some ((false, retry_after),
          { s with apiAttempts := dinsert key pruned s.apiAttempts })
  else
    some ((true, 0),
      { s with apiAttempts := dinsert key (pruned ++ [now]) s.apiAttempts })

/-! ### Task tracker (`app/state.py`) -/

/-- `TaskManager` class configuration (`TASK_TTL_MINUTES`,
`TASK_MAX_ITEMS`, `TASK_DETAIL_MAX_ITEMS`). -/
structure TaskCfg where
  ttlMinutes : Int
  maxItems : Nat
  detailMaxItems : Nat
deriving Repr

/-- A stored task record.  The mutable `details` list is held by reference:
`details` is an address into the task manager's heap, so that the aliasing
behaviour of `dict(task)` / `list(task["details"])` copies is faithful. -/
structure TaskRec where
  status : String
  progress : Int
  message : String
  details : Nat
  owner_email : String
  created_at : Time
  updated_at : Time
deriving DecidableEq, Repr

/-- The task manager's state: the `tasks` dict plus a heap of `details`
list objects and a fresh-address counter modelling Python allocation. -/
structure TMState where
  tasks : List (String × TaskRec)
  heap : List (Nat × List String)
  nextAddr : Nat
deriving DecidableEq, Repr

/-- Read a details-list object from the heap. -/
def hget (a : Nat) (h : List (Nat × List String)) : List String :=
  (dget a h).getD []

/-- `TaskManager._cleanup`: drop tasks idle longer than
`max(5, TASK_TTL_MINUTES)` minutes, then keep the `TASK_MAX_ITEMS` most
recently updated tasks. -/
def tm_cleanup (cfg : TaskCfg) (s : TMState) (now : Time) : TMState :=
  if s.tasks.isEmpty then s
  else
    let newTasks :=
      capacityEvict (·.updated_at) cfg.maxItems
        (s.tasks.filter (fun kv =>
          ¬ now - kv.2.updated_at > (max 5 cfg.ttlMinutes) * 60))
    { s with tasks := newTasks }

/-- `TaskManager.create_task(task_id, owner_email)`: cleanup, then insert a
fresh `pending` record with progress 0 and a newly allocated empty
`details` list. -/
def create_task (cfg : TaskCfg) (s : TMState) (task_id owner_email : String)
    (now : Time) : TMState :=
  let s := tm_cleanup cfg s now
  let addr := s.nextAddr
  let t : TaskRec :=
    { status := "pending", progress := 0, message := "Initializing...",
      details := addr, owner_email := owner_email, created_at := now,
      updated_at := now }
  { s with tasks := dinsert task_id t s.tasks,
           heap := dinsert addr [] s.heap, nextAddr := addr + 1 }

/-- The value passed as `progress` to `update_task`: either something
`int()` accepts, or a value on which `int()` raises
`TypeError`/`ValueError` (a non-numeric string, `NaN`, ...). -/
inductive ProgInput where
  | int (n : Int)
  | nonNumeric
deriving DecidableEq, Repr

/-- `int(progress)` with the `except (TypeError, ValueError)` fallback 0. -/
def normalizeProgress : ProgInput → Int
  | .int n => n
  | .nonNumeric => 0

/-- `TaskManager.update_task(task_id, status, progress, message)`: cleanup;
if the task exists, apply the partial update — a truthy `status` is
written verbatim, `progress` is coerced and clamped into `[0, 100]`, a
non-`None` message is written — and bump `updated_at`. -/
def update_task (cfg : TaskCfg) (s : TMState) (task_id : String)
    (status : Option String) (progress : Option ProgInput)
    (message : Option String) (now : Time) : TMState :=
  let s := tm_cleanup cfg s now
  match dget task_id s.tasks with
  | none => s
  | some t =>
      let t := match status with
        | some st => if st = "" then t else { t with status := st }
        | none => t
      let t := match progress with
        | some p =>
            { t with progress := max 0 (min 100 (normalizeProgress p)) }
        | none => t
      let t := match message with
        | some m => { t with message := m }
        | none => t
      let t := { t with updated_at := now }
      { s with tasks := dinsert task_id t s.tasks }

/-- `TaskManager.add_detail(task_id, detail)`: cleanup; append to the
task's `details` list object in place, trim to the most recent
`max(1, TASK_DETAIL_MAX_ITEMS)` entries (`del details[:-max_items]`), bump
`updated_at`. -/
def add_detail (cfg : TaskCfg) (s : TMState) (task_id detail : String)
    (now : Time) : TMState :=
  let s := tm_cleanup cfg s now
  match dget task_id s.tasks with
  | none => s
  | some t =>
      let l := hget t.details s.heap ++ [detail]
      let m := max 1 cfg.detailMaxItems
      let l := if l.length > m then l.drop (l.length - m) else l
      { s with heap := dinsert t.details l s.heap,
               tasks := dinsert task_id { t with updated_at := now } s.tasks }

/-- What `get_task` hands back: `dict(task)` with a freshly allocated copy
of the `details` list; popped keys read as `none`. -/
structure TaskView where
  status : String
  progress : Int
  message : String
  details : Nat
  owner_email : Option String
  created_at : Option Time
  updated_at : Option Time
deriving DecidableEq, Repr

/-- `TaskManager.get_task(task_id, include_private)`: cleanup; `None` for
an unknown id; otherwise a shallow copy of the record whose `details`
field points at a newly allocated copy of the stored list, with
`owner_email`, `created_at` and `updated_at` popped unless
`include_private`. -/
def get_task (cfg : TaskCfg) (s : TMState) (task_id : String)
    (include_private : Bool) (now : Time) : Option TaskView × TMState :=
  let s := tm_cleanup cfg s now
  match dget task_id s.tasks with
  | none => (none, s)
  | some t =>
      let addr := s.nextAddr
      let view : TaskView :=
        { status := t.status, progress := t.progress, message := t.message,
          details := addr,
          owner_email := if include_private then some t.owner_email else none,
          created_at := if include_private then some t.created_at else none,
          updated_at := if include_private then some t.updated_at else none }
      (some view,
       { s with heap := dinsert addr (hget t.details s.heap) s.heap,
                nextAddr := addr + 1 })

/-- Mutating a details-list object through its address (e.g.
`view["details"].append(...)` on the value `get_task` returned). -/
def heapWrite (s : TMState) (addr : Nat) (l : List String) : TMState :=
  { s with heap := dinsert addr l s.heap }

/-! ### The task-status endpoint (`app/routers/upload.py`) -/

/-- Failures of `GET /api/upload/status/{task_id}`. -/
inductive StatusErr where
  | tooMany (retry_after : Int)
  | notFound
  | forbidden
deriving DecidableEq, Repr

/-- HTTP status of each `get_task_status` failure. -/
def StatusErr.status : StatusErr → Nat
  | .tooMany _ => 429
  | .notFound => 404
  | .forbidden => 403

/-- `enforce_api_rate_limit`'s composite key
`f"{bucket}:{identity}:{ip}"` with
`identity = (user_email or "").strip().lower() or "anonymous"`. -/
def rateLimitKey (bucket : String) (user_email : Option String)
    (ip : String) : String :=
  let e := pyLower (pyStrip (user_email.getD ""))
  let identity := if e = "" then "anonymous" else e
  bucket ++ ":" ++ identity ++ ":" ++ ip

/-- `get_task_status(task_id)` handler: enforce the
`upload-status` sliding-window limit (300/60s, 429 on rejection), read the
task with `include_private=True` (404 when unknown), reject a caller that
is neither admin nor the owner (403), then `pop("owner_email")` from the
copy before returning it.  `none` models the unreachable `IndexError`
branch of the limiter. -/
def get_task_status (cfg : SecConfig) (tcfg : TaskCfg) (sec : SecState)
    (tm : TMState) (task_id : String) (user : JwtPayload) (ip : String)
    (now : Time) : Option (Except StatusErr TaskView × SecState × TMState) :=
  let key := rateLimitKey "upload-status" user.email ip
  match check_sliding_window cfg sec key (max 1 300) (max 1 60) now with
  | none => none
  | some ((allowed, retry), sec) =>
      if ¬ allowed then some (.error (.tooMany retry), sec, tm)
      else
        match get_task tcfg tm task_id true now with
        | (none, tm) => some (.error .notFound, sec, tm)
        | (some view, tm) =>
            if user.role ≠ some "admin" ∧ view.owner_email ≠ user.email then
              some (.error .forbidden, sec, tm)
            else
              some (.ok { view with owner_email := none }, sec, tm)

/-! ### Route-metrics collector (`app/metrics.py`) -/

/-- A `RouteMetric` dataclass value; `recent_latency_ms` is a
`deque(maxlen=400)`. -/
structure RouteMetric where
  count : Nat
  errors : Nat
  total_latency_ms : Int
  recent_latency_ms : List Int
deriving DecidableEq, Repr

/-- The module-level metrics state. -/
structure MetricsState where
  totalRequests : Nat
  totalErrors : Nat
  overflowRequests : Nat
  routes : List (String × RouteMetric)
deriving Repr

/-- The state after `reset_metrics_for_tests` / at import. -/
def metricsInit : MetricsState :=
  { totalRequests := 0, totalErrors := 0, overflowRequests := 0,
    routes := [] }

/-- `OVERFLOW_ROUTE_PATH = "/__overflow__"`; the overflow bucket's route
key is `f"* {OVERFLOW_ROUTE_PATH}"`. -/
def overflowRouteKey : String := "* /__overflow__"

/-- `_resolve_route_key(method, path)`: an already-tracked key stays
itself; a new key is admitted while fewer than `max(0, MAX_TRACKED_ROUTES
- 1)` routes are tracked (one slot is reserved for the overflow bucket);
otherwise it collapses into the overflow bucket. -/
def resolve_route_key (maxRoutes : Nat)
    (routes : List (String × RouteMetric)) (method path : String) :
    String × Bool :=
  let route_key := pyUpper method ++ " " ++ path
  if (dget route_key routes).isSome then (route_key, false)
  else if routes.length < maxRoutes - 1 then (route_key, false)
  else (overflowRouteKey, true)

/-- A recorded request. -/
structure Req where
  method : String
  path : String
  status_code : Nat
  latency_ms : Int
deriving DecidableEq, Repr

/-- `deque(maxlen=400).append`: keep the most recent 400 entries. -/
def dequePush (cap : Nat) (l : List Int) (x : Int) : List Int :=
  let l := l ++ [x]
  l.drop (l.length - cap)

/-- `record_request(method, path, status_code, latency_ms)`: resolve the
route key (counting overflow), bump the global counters, then create or
update the route's metric in place. -/
def record_request (maxRoutes : Nat) (s : MetricsState) (r : Req) :
    MetricsState :=
  let rk := resolve_route_key maxRoutes s.routes r.method r.path
  let s := if rk.2 then { s with overflowRequests := s.overflowRequests + 1 }
           else s
  let s := { s with totalRequests := s.totalRequests + 1,
                    totalErrors := if r.status_code ≥ 400 then
                      s.totalErrors + 1 else s.totalErrors }
  let m := (dget rk.1 s.routes).getD
    { count := 0, errors := 0, total_latency_ms := 0, recent_latency_ms := [] }
  let m : RouteMetric :=
    { count := m.count + 1,
      errors := if r.status_code ≥ 400 then m.errors + 1 else m.errors,
      total_latency_ms := m.total_latency_ms + max 0 r.latency_ms,
      recent_latency_ms := dequePush 400 m.recent_latency_ms
        (max 0 r.latency_ms) }
  { s with routes := dinsert rk.1 m s.routes }

/-- Recording a whole trace of requests in order. -/
def record_all (maxRoutes : Nat) (s : MetricsState) (rs : List Req) :
    MetricsState :=
  rs.foldl (record_request maxRoutes) s

/-- The route key a request resolves to in isolation (used to count the
distinct routes of a trace). -/
def reqKey (r : Req) : String := pyUpper r.method ++ " " ++ r.path

/-! ## Lemmas: the dictionary model -/

section DictLemmas

variable {κ α : Type} [DecidableEq κ]

theorem dget_nil (k : κ) : dget k ([] : List (κ × α)) = none := rfl

theorem dget_cons (k : κ) (kv : κ × α) (tl : List (κ × α)) :
    dget k (kv :: tl) = if kv.1 = k then some kv.2 else dget k tl := by
  by_cases h : kv.1 = k <;> simp [dget, List.find?, h]

theorem dget_dinsert_self (k : κ) (v : α) (st : List (κ × α)) :
    dget k (dinsert k v st) = some v := by
  induction st with
  | nil => simp [dinsert, dget_cons]
  | cons hd tl ih =>
      by_cases h : hd.1 = k
      · simp [dinsert, h, dget_cons]
      · simp [dinsert, h, dget_cons, ih]

theorem dget_dinsert_ne (k k' : κ) (v : α) (st : List (κ × α))
    (h : k' ≠ k) : dget k' (dinsert k v st) = dget k' st := by
  have hne : ¬ k = k' := fun h' => h h'.symm
  induction st with
  | nil => rw [dinsert, dget_cons, if_neg hne]
  | cons hd tl ih =>
      by_cases hh : hd.1 = k
      · rw [dinsert, if_pos hh, dget_cons, dget_cons, if_neg hne, hh,
          if_neg hne]
      · rw [dinsert, if_neg hh, dget_cons, dget_cons, ih]

theorem dget_dpop_ne (k k' : κ) (st : List (κ × α)) (h : k' ≠ k) :
    dget k' (dpop k st) = dget k' st := by
  induction st with
  | nil => simp [dpop]
  | cons hd tl ih =>
      by_cases hh : hd.1 = k
      · rw [dpop, if_pos hh, dget_cons, if_neg (by rw [hh]; exact fun h' => h h'.symm)]
      · rw [dpop, if_neg hh, dget_cons, dget_cons, ih]

theorem dget_eq_none_iff (k : κ) (st : List (κ × α)) :
    dget k st = none ↔ ∀ kv ∈ st, kv.1 ≠ k := by
  simp [dget, List.find?_eq_none]

theorem dget_dpop_self (k : κ) (st : List (κ × α))
    (hnd : (keys st).Nodup) : dget k (dpop k st) = none := by
  induction st with
  | nil => simp [dpop, dget]
  | cons hd tl ih =>
      simp only [keys, List.map_cons, List.nodup_cons] at hnd
      by_cases hh : hd.1 = k
      · rw [dpop, if_pos hh, dget_eq_none_iff]
        intro kv hmem heq
        exact hnd.1 (by rw [hh, ← heq]; exact List.mem_map_of_mem _ hmem)
      · rw [dpop, if_neg hh, dget_cons, if_neg hh]
        exact ih hnd.2

theorem dget_mem (k : κ) (v : α) (st : List (κ × α))
    (h : dget k st = some v) : (k, v) ∈ st := by
  induction st with
  | nil => simp [dget] at h
  | cons hd tl ih =>
      rw [dget_cons] at h
      by_cases hh : hd.1 = k
      · rw [if_pos hh] at h
        have hd_eq : hd = (k, v) := by cases hd; simp_all
        rw [hd_eq]
        exact List.mem_cons_self _ _
      · rw [if_neg hh] at h
        exact List.mem_cons_of_mem _ (ih h)

theorem dget_filter_of_pred {p : κ × α → Bool} (k : κ) (v : α)
    (st : List (κ × α)) (h : dget k st = some v) (hp : p (k, v) = true) :
    dget k (st.filter p) = some v := by
  induction st with
  | nil => simp [dget] at h
  | cons hd tl ih =>
      rw [dget_cons] at h
      by_cases hh : hd.1 = k
      · rw [if_pos hh] at h
        have hd_eq : hd = (k, v) := by
          cases hd; simp_all
        subst hd_eq
        rw [List.filter_cons, if_pos hp, dget_cons, if_pos rfl]
      · rw [if_neg hh] at h
        rw [List.filter_cons]
        by_cases hph : p hd
        · rw [if_pos hph, dget_cons, if_neg hh]
          exact ih h
        · rw [if_neg hph]
          exact ih h

theorem dget_none_of_subset (k : κ) (st st' : List (κ × α))
    (h : dget k st = none) (hsub : ∀ kv ∈ st', kv ∈ st) :
    dget k st' = none := by
  rw [dget_eq_none_iff] at h ⊢
  exact fun kv hmem => h kv (hsub kv hmem)

theorem mem_keys_dinsert_self (k : κ) (v : α) (st : List (κ × α)) :
    k ∈ keys (dinsert k v st) := by
  induction st with
  | nil => simp [dinsert, keys]
  | cons hd tl ih =>
      by_cases hh : hd.1 = k
      · simp [dinsert, hh, keys]
      · simp only [dinsert, if_neg hh, keys, List.map_cons, List.mem_cons]
        exact Or.inr ih

theorem keys_dinsert_mono (k k' : κ) (v : α) (st : List (κ × α))
    (h : k' ∈ keys st) : k' ∈ keys (dinsert k v st) := by
  induction st with
  | nil => simp [keys] at h
  | cons hd tl ih =>
      by_cases hh : hd.1 = k
      · simp only [keys, List.map_cons, List.mem_cons] at h
        rcases h with h | h
        · simp [dinsert, hh, keys, hh ▸ h]
        · simp [dinsert, hh, keys, h]
      · simp only [keys, List.map_cons, List.mem_cons] at h
        rcases h with h | h
        · simp [dinsert, hh, keys, h]
        · simp only [dinsert, if_neg hh, keys, List.map_cons, List.mem_cons]
          exact Or.inr (ih h)

theorem length_dinsert_present (k : κ) (v v' : α) (st : List (κ × α))
    (h : dget k st = some v') : (dinsert k v st).length = st.length := by
  induction st with
  | nil => simp [dget] at h
  | cons hd tl ih =>
      rw [dget_cons] at h
      by_cases hh : hd.1 = k
      · simp [dinsert, hh]
      · rw [if_neg hh] at h
        simp [dinsert, hh, ih h]

theorem length_dinsert_absent (k : κ) (v : α) (st : List (κ × α))
    (h : dget k st = none) : (dinsert k v st).length = st.length + 1 := by
  induction st with
  | nil => simp [dinsert]
  | cons hd tl ih =>
      rw [dget_cons] at h
      by_cases hh : hd.1 = k
      · simp [if_pos hh] at h
      · rw [if_neg hh] at h
        simp [dinsert, hh, ih h]

theorem keys_dinsert_present (k : κ) (v v' : α) (st : List (κ × α))
    (h : dget k st = some v') : keys (dinsert k v st) = keys st := by
  induction st with
  | nil => simp [dget] at h
  | cons hd tl ih =>
      rw [dget_cons] at h
      by_cases hh : hd.1 = k
      · simp [dinsert, hh, keys]
      · rw [if_neg hh] at h
        simp only [dinsert, if_neg hh, keys, List.map_cons, List.cons.injEq,
          true_and]
        have := ih h
        simpa [keys] using this

theorem mem_keys_of_dget (k : κ) (v : α) (st : List (κ × α))
    (h : dget k st = some v) : k ∈ keys st := by
  have := dget_mem k v st h
  exact List.mem_map_of_mem _ this

end DictLemmas

/-! ## Lemmas: maintenance sweeps -/

section SweepLemmas

variable {κ α : Type} [DecidableEq κ]

theorem capacityEvict_within (r : α → Time) (m : Nat) (p : List (κ × α))
    (h : p.length ≤ m) : capacityEvict r m p = p := by
  simp [capacityEvict, h]

theorem capacityEvict_subset (r : α → Time) (m : Nat) (p : List (κ × α)) :
    ∀ kv ∈ capacityEvict r m p, kv ∈ p := by
  unfold capacityEvict
  split
  · exact fun kv h => h
  · exact fun kv h => (List.mem_filter.mp h).1

theorem capacityEvict_length (r : α → Time) (m : Nat) (p : List (κ × α))
    (hnd : (keys p).Nodup) : (capacityEvict r m p).length ≤ m := by
  unfold capacityEvict
  split
  · assumption
  · set keep :=
      (((p.mergeSort (fun a b => r b.2 ≤ r a.2)).take m).map (·.1)) with hk
    set res := p.filter (fun kv => kv.1 ∈ keep) with hr
    have hsub : res.map (·.1) ⊆ keep := by
      intro x hx
      simp only [List.mem_map] at hx
      obtain ⟨kv, hkv, rfl⟩ := hx
      have := List.mem_filter.mp hkv
      simpa using this.2
    have hndres : (res.map (·.1)).Nodup :=
      ((List.filter_sublist p).map (·.1)).nodup hnd
    have hle : (res.map (·.1)).length ≤ keep.length :=
      (hndres.subperm hsub).length_le
    have h1 : (res.map (·.1)).length = res.length := List.length_map _ _
    have h2 : keep.length ≤ m := by
      rw [hk, List.length_map, List.length_take]
      exact min_le_left _ _
    omega

theorem capacityEvict_order (r : α → Time) (m : Nat) (p : List (κ × α))
    (hnd : (keys p).Nodup) :
    ∀ kv ∈ capacityEvict r m p, ∀ ev ∈ p, ev ∉ capacityEvict r m p →
      r ev.2 ≤ r kv.2 := by
  unfold capacityEvict
  split
  · exact fun kv _ ev hev hnev => absurd hev hnev
  · intro kv hkv ev hev hnev
    set le := fun (a b : κ × α) => decide (r b.2 ≤ r a.2) with hle
    set sorted := p.mergeSort le with hs
    have hperm : sorted.Perm p := List.mergeSort_perm p le
    have hpair : List.Pairwise (fun a b => le a b = true) sorted :=
      List.sorted_mergeSort
        (fun a b c hab hbc => by
          simp only [hle, decide_eq_true_eq] at hab hbc ⊢
          exact le_trans hbc hab)
        (fun a b => by
          simp only [hle, Bool.or_eq_true, decide_eq_true_eq]
          exact le_total (r b.2) (r a.2))
        p
    have hndsorted : (sorted.map (·.1)).Nodup := by
      have hp : (sorted.map (·.1)).Perm (p.map (·.1)) := hperm.map (·.1)
      exact hp.nodup_iff.mpr hnd
    -- the kept entry sits in the first `m` elements of the sorted list
    have hkv_mem := List.mem_filter.mp hkv
    have hkv_keep : kv.1 ∈ (sorted.take m).map (·.1) := by
      simpa using hkv_mem.2
    obtain ⟨kv', hkv', hkey⟩ := List.mem_map.mp hkv_keep
    have hkv'_sorted : kv' ∈ sorted := List.mem_of_mem_take hkv'
    have hkv_sorted : kv ∈ sorted := hperm.mem_iff.mpr hkv_mem.1
    have hkv'_eq : kv' = kv :=
      List.inj_on_of_nodup_map hndsorted hkv'_sorted hkv_sorted hkey
    have hkv_take : kv ∈ sorted.take m := hkv'_eq ▸ hkv'
    -- the evicted entry sits in the remainder
    have hev_sorted : ev ∈ sorted := hperm.mem_iff.mpr hev
    have hev_keep : ev.1 ∉ (sorted.take m).map (·.1) := by
      intro hcon
      exact hnev (List.mem_filter.mpr ⟨hev, by simpa using hcon⟩)
    have hsplit : sorted.take m ++ sorted.drop m = sorted :=
      List.take_append_drop m sorted
    have hev_drop : ev ∈ sorted.drop m := by
      have hev' : ev ∈ sorted.take m ++ sorted.drop m := by
        rw [hsplit]; exact hev_sorted
      rcases List.mem_append.mp hev' with h | h
      · exact absurd (List.mem_map.mpr ⟨ev, h, rfl⟩) hev_keep
      · exact h
    have hpair' :
        List.Pairwise (fun a b => le a b = true)
          (sorted.take m ++ sorted.drop m) := by
      rw [hsplit]; exact hpair
    have hle_ev := (List.pairwise_append.mp hpair').2.2 kv hkv_take ev hev_drop
    simpa [hle] using hle_ev

theorem cleanup_token_store_subset (store : List (κ × TokenData))
    (now : Time) (m : Nat) :
    ∀ kv ∈ cleanup_token_store store now m, kv ∈ store :=
  fun kv h =>
    (List.mem_filter.mp (capacityEvict_subset _ _ _ kv h)).1

theorem cleanup_token_store_no_expired (store : List (κ × TokenData))
    (now : Time) (m : Nat) :
    ∀ kv ∈ cleanup_token_store store now m, ¬ now > kv.2.exp :=
  fun kv h => by
    simpa using (List.mem_filter.mp (capacityEvict_subset _ _ _ kv h)).2

theorem cleanup_token_store_length (store : List (κ × TokenData))
    (now : Time) (m : Nat) (hnd : (keys store).Nodup) :
    (cleanup_token_store store now m).length ≤ m :=
  capacityEvict_length _ _ _ (((List.filter_sublist store).map (·.1)).nodup hnd)

theorem cleanup_token_store_within (store : List (κ × TokenData))
    (now : Time) (m : Nat)
    (h : (store.filter (fun kv => ¬ now > kv.2.exp)).length ≤ m) :
    cleanup_token_store store now m =
      store.filter (fun kv => ¬ now > kv.2.exp) :=
  capacityEvict_within _ _ _ h

theorem cleanup_token_store_order (store : List (κ × TokenData))
    (now : Time) (m : Nat) (hnd : (keys store).Nodup) :
    ∀ kv ∈ cleanup_token_store store now m,
      ∀ ev ∈ store, ¬ now > ev.2.exp →
        ev ∉ cleanup_token_store store now m →
          ev.2.created_at ≤ kv.2.created_at := by
  intro kv hkv ev hev hexp hnev
  unfold cleanup_token_store at hkv hnev
  exact capacityEvict_order (·.created_at) m _
    (((List.filter_sublist store).map (·.1)).nodup hnd) kv hkv ev
    (List.mem_filter.mpr ⟨hev, by simpa using hexp⟩) hnev

theorem dget_cleanup_token_store_none (store : List (κ × TokenData))
    (now : Time) (m : Nat) (k : κ) (h : dget k store = none) :
    dget k (cleanup_token_store store now m) = none :=
  dget_none_of_subset _ _ _ h (cleanup_token_store_subset store now m)

theorem dget_cleanup_token_store_live (store : List (κ × TokenData))
    (now : Time) (m : Nat) (k : κ) (d : TokenData)
    (h : dget k store = some d) (hexp : ¬ now > d.exp)
    (hlen : (store.filter (fun kv => ¬ now > kv.2.exp)).length ≤ m) :
    dget k (cleanup_token_store store now m) = some d := by
  rw [cleanup_token_store_within store now m hlen]
  exact dget_filter_of_pred k d store h (by simpa using hexp)

theorem maintenance_skip (cfg : SecConfig) (s : SecState) (now : Time)
    (h : now - s.lastCleanup < cfg.cleanupInterval) :
    run_security_maintenance cfg s now = s := by
  simp [run_security_maintenance, h]

theorem dget_csrf_maintenance_none (cfg : SecConfig) (s : SecState)
    (now : Time) (t : String) (h : dget t s.csrfStore = none) :
    dget t (run_security_maintenance cfg s now).csrfStore = none := by
  unfold run_security_maintenance
  split
  · exact h
  · exact dget_cleanup_token_store_none _ _ _ _ h

theorem capacityEvict_sublist (r : α → Time) (m : Nat) (p : List (κ × α)) :
    (capacityEvict r m p).Sublist p := by
  unfold capacityEvict
  split
  · exact List.Sublist.refl p
  · exact List.filter_sublist p

/-- Shorthand for the cutoff used by `_cleanup_attempt_store`. -/
theorem cleanup_attempt_store_entries (store : List (String × List Time))
    (now : Time) (ttl : Int) (mk : Nat) :
    ∀ kv ∈ cleanup_attempt_store store now ttl mk,
      kv.2 ≠ [] ∧ ∀ ts ∈ kv.2, ts ≥ now - max 1 ttl := by
  intro kv hkv
  unfold cleanup_attempt_store at hkv
  have hp := capacityEvict_subset _ _ _ kv hkv
  have hm := List.mem_filter.mp hp
  refine ⟨by simpa using hm.2, ?_⟩
  obtain ⟨kv', _, heq⟩ := List.mem_map.mp hm.1
  intro ts hts
  have : ts ∈ kv.2 := hts
  rw [← heq] at this
  simpa using (List.mem_filter.mp this).2

theorem cleanup_attempt_store_length (store : List (String × List Time))
    (now : Time) (ttl : Int) (mk : Nat) (hnd : (keys store).Nodup) :
    (cleanup_attempt_store store now ttl mk).length ≤ mk := by
  unfold cleanup_attempt_store
  apply capacityEvict_length
  have hkeys :
      keys (store.map (fun kv =>
        (kv.1, kv.2.filter (fun ts => ts ≥ now - max 1 ttl)))) = keys store := by
    simp [keys, Function.comp]
  have : (keys (store.map (fun kv =>
      (kv.1, kv.2.filter (fun ts => ts ≥ now - max 1 ttl))))).Nodup := by
    rw [hkeys]; exact hnd
  exact ((List.filter_sublist _).map Prod.fst).nodup this

theorem cleanup_attempt_store_within (store : List (String × List Time))
    (now : Time) (ttl : Int) (mk : Nat)
    (h : (((store.map (fun kv =>
        (kv.1, kv.2.filter (fun ts => ts ≥ now - max 1 ttl)))).filter
          (fun kv => ¬ kv.2 = [])).length ≤ mk)) :
    cleanup_attempt_store store now ttl mk =
      ((store.map (fun kv =>
        (kv.1, kv.2.filter (fun ts => ts ≥ now - max 1 ttl)))).filter
          (fun kv => ¬ kv.2 = [])) :=
  capacityEvict_within _ _ _ h

theorem cleanup_attempt_store_order (store : List (String × List Time))
    (now : Time) (ttl : Int) (mk : Nat) (hnd : (keys store).Nodup) :
    ∀ kv ∈ cleanup_attempt_store store now ttl mk,
      ∀ ev ∈ ((store.map (fun kv =>
          (kv.1, kv.2.filter (fun ts => ts ≥ now - max 1 ttl)))).filter
            (fun kv => ¬ kv.2 = [])),
        ev ∉ cleanup_attempt_store store now ttl mk →
          lastOrZero ev.2 ≤ lastOrZero kv.2 := by
  intro kv hkv ev hev hnev
  unfold cleanup_attempt_store at hkv hnev
  have hkeys :
      keys (store.map (fun kv =>
        (kv.1, kv.2.filter (fun ts => ts ≥ now - max 1 ttl)))) = keys store := by
    simp [keys, Function.comp]
  have hnd' : (keys (store.map (fun kv =>
      (kv.1, kv.2.filter (fun ts => ts ≥ now - max 1 ttl))))).Nodup := by
    rw [hkeys]; exact hnd
  exact capacityEvict_order lastOrZero mk _
    (((List.filter_sublist _).map Prod.fst).nodup hnd') kv hkv ev hev hnev

theorem tm_cleanup_heap (cfg : TaskCfg) (s : TMState) (now : Time) :
    (tm_cleanup cfg s now).heap = s.heap := by
  unfold tm_cleanup
  split <;> rfl

theorem tm_cleanup_nextAddr (cfg : TaskCfg) (s : TMState) (now : Time) :
    (tm_cleanup cfg s now).nextAddr = s.nextAddr := by
  unfold tm_cleanup
  split <;> rfl

theorem tm_cleanup_tasks_sublist (cfg : TaskCfg) (s : TMState) (now : Time) :
    (tm_cleanup cfg s now).tasks.Sublist s.tasks := by
  unfold tm_cleanup
  split
  · exact List.Sublist.refl _
  · exact (capacityEvict_sublist _ _ _).trans (List.filter_sublist _)

theorem tm_cleanup_no_expired (cfg : TaskCfg) (s : TMState) (now : Time) :
    ∀ kv ∈ (tm_cleanup cfg s now).tasks,
      ¬ now - kv.2.updated_at > (max 5 cfg.ttlMinutes) * 60 := by
  intro kv hkv
  unfold tm_cleanup at hkv
  split at hkv
  · rename_i hemp
    rw [List.isEmpty_iff] at hemp
    rw [hemp] at hkv
    simp at hkv
  · have := capacityEvict_subset _ _ _ kv hkv
    simpa using (List.mem_filter.mp this).2

theorem tm_cleanup_length (cfg : TaskCfg) (s : TMState) (now : Time)
    (hnd : (keys s.tasks).Nodup) :
    (tm_cleanup cfg s now).tasks.length ≤ cfg.maxItems := by
  unfold tm_cleanup
  split
  · rename_i hemp
    rw [List.isEmpty_iff] at hemp
    simp [hemp]
  · exact capacityEvict_length _ _ _
      (((List.filter_sublist _).map Prod.fst).nodup hnd)

theorem tm_cleanup_within (cfg : TaskCfg) (s : TMState) (now : Time)
    (h : ((s.tasks.filter (fun kv =>
        ¬ now - kv.2.updated_at > (max 5 cfg.ttlMinutes) * 60)).length ≤
          cfg.maxItems)) :
    (tm_cleanup cfg s now).tasks =
      s.tasks.filter (fun kv =>
        ¬ now - kv.2.updated_at > (max 5 cfg.ttlMinutes) * 60) := by
  unfold tm_cleanup
  split
  · rename_i hemp
    rw [List.isEmpty_iff] at hemp
    simp [hemp]
  · exact capacityEvict_within _ _ _ h

theorem tm_cleanup_order (cfg : TaskCfg) (s : TMState) (now : Time)
    (hnd : (keys s.tasks).Nodup) :
    ∀ kv ∈ (tm_cleanup cfg s now).tasks,
      ∀ ev ∈ s.tasks,
        ¬ now - ev.2.updated_at > (max 5 cfg.ttlMinutes) * 60 →
          ev ∉ (tm_cleanup cfg s now).tasks →
            ev.2.updated_at ≤ kv.2.updated_at := by
  intro kv hkv ev hev hexp hnev
  unfold tm_cleanup at hkv hnev
  split at hkv
  · rename_i hemp
    rw [List.isEmpty_iff] at hemp
    rw [hemp] at hev
    simp at hev
  · rename_i hemp
    simp only at hkv hnev
    rw [if_neg hemp] at hnev
    exact capacityEvict_order (·.updated_at) cfg.maxItems _
      (((List.filter_sublist _).map Prod.fst).nodup hnd) kv hkv ev
      (List.mem_filter.mpr ⟨hev, by simpa using hexp⟩) hnev

theorem dget_tm_cleanup_live (cfg : TaskCfg) (s : TMState) (now : Time)
    (id : String) (t : TaskRec) (h : dget id s.tasks = some t)
    (hexp : ¬ now - t.updated_at > (max 5 cfg.ttlMinutes) * 60)
    (hlen : ((s.tasks.filter (fun kv =>
        ¬ now - kv.2.updated_at > (max 5 cfg.ttlMinutes) * 60)).length ≤
          cfg.maxItems)) :
    dget id (tm_cleanup cfg s now).tasks = some t := by
  rw [tm_cleanup_within cfg s now hlen]
  exact dget_filter_of_pred id t s.tasks h (by simpa using hexp)

end SweepLemmas

/-! ## Claim theorems -/

/-- C6: for every existing task and every value supplied as `progress` to
`update_task`, the stored progress afterwards lies in `[0, 100]`;
`progress=250` stores 100, `progress=-5` stores 0, and a non-numeric
progress value is coerced (to 0) rather than rejected — the update is
still applied, as witnessed by the bumped `updated_at` and the applied
message. -/
theorem C6_progress_clamped (cfg : TaskCfg) (s : TMState) (id : String)
    (stt msg : Option String) (p : ProgInput) (now : Time) (t : TaskRec)
    (ht : dget id (tm_cleanup cfg s now).tasks = some t) :
    ∃ t', dget id (update_task cfg s id stt (some p) msg now).tasks = some t'
      ∧ t'.progress = max 0 (min 100 (normalizeProgress p))
      ∧ 0 ≤ t'.progress ∧ t'.progress ≤ 100
      ∧ t'.updated_at = now
      ∧ (∀ m, msg = some m → t'.message = m)
      ∧ (p = .int 250 → t'.progress = 100)
      ∧ (p = .int (-5) → t'.progress = 0)
      ∧ (p = .nonNumeric → t'.progress = 0) := by
  suffices h : ∃ t',
      dget id (update_task cfg s id stt (some p) msg now).tasks = some t'
      ∧ t'.progress = max 0 (min 100 (normalizeProgress p))
      ∧ t'.updated_at = now
      ∧ (∀ m, msg = some m → t'.message = m) by
    obtain ⟨t', h1, h2, h3, h4⟩ := h
    refine ⟨t', h1, h2, by rw [h2]; omega, by rw [h2]; omega, h3, h4,
      ?_, ?_, ?_⟩
    · intro hp; subst hp; rw [h2]; decide
    · intro hp; subst hp; rw [h2]; decide
    · intro hp; subst hp; rw [h2]; decide
  simp only [update_task]
  rw [ht]
  refine ⟨_, dget_dinsert_self _ _ _, ?_⟩
  cases msg with
  | none =>
      cases stt with
      | none => exact ⟨rfl, rfl, fun m hm => by cases hm⟩
      | some st =>
          by_cases hst : st = ""
          · simp only [if_pos hst]
            refine ⟨?_, ?_, ?_⟩ <;>
              first | trivial | (intro x hx; cases hx; try trivial)
          · simp only [if_neg hst]
            refine ⟨?_, ?_, ?_⟩ <;>
              first | trivial | (intro x hx; cases hx; try trivial)
  | some m =>
      cases stt with
      | none => exact ⟨rfl, rfl, fun m' hm => by cases hm; rfl⟩
      | some st =>
          by_cases hst : st = ""
          · simp only [if_pos hst]
            refine ⟨?_, ?_, ?_⟩ <;>
              first | trivial | (intro x hx; cases hx; try trivial)
          · simp only [if_neg hst]
            refine ⟨?_, ?_, ?_⟩ <;>
              first | trivial | (intro x hx; cases hx; try trivial)

/-- C6 witness: a concrete task updated with progress 250 stores
progress 100. -/
theorem C6_progress_clamped_witness :
    ∃ t', dget "t1"
        (update_task ⟨180, 2000, 100⟩
          ⟨[("t1", ⟨"pending", 0, "Init", 0, "a@b", 0, 0⟩)], [(0, [])], 1⟩
          "t1" none (some (.int 250)) none 1).tasks = some t'
      ∧ t'.progress = max 0 (min 100 (normalizeProgress (.int 250)))
      ∧ 0 ≤ t'.progress ∧ t'.progress ≤ 100
      ∧ t'.updated_at = 1
      ∧ (∀ m, (none : Option String) = some m → t'.message = m)
      ∧ (ProgInput.int 250 = .int 250 → t'.progress = 100)
      ∧ (ProgInput.int 250 = .int (-5) → t'.progress = 0)
      ∧ (ProgInput.int 250 = .nonNumeric → t'.progress = 0) :=
  C6_progress_clamped ⟨180, 2000, 100⟩
    ⟨[("t1", ⟨"pending", 0, "Init", 0, "a@b", 0, 0⟩)], [(0, [])], 1⟩
    "t1" none none (.int 250) 1 ⟨"pending", 0, "Init", 0, "a@b", 0, 0⟩
    (by decide)

/-- C9: access-credential verification is independent of store state —
`verify_token` yields identical outcomes in any two states that differ
only in store contents; in particular a revoked (absent from the refresh
store) but correctly-signed, unexpired credential still verifies, an
expired one fails `Expired` (401), and a wrong-secret or malformed one
fails `Invalid` (401). -/
theorem C9_verify_stateless (secret : String) (now : Time) :
    (∀ (s1 s2 : SecState) (tok : Jwt),
      verify_token secret s1 tok now = verify_token secret s2 tok now)
    ∧ (∀ (s : SecState) (p : JwtPayload),
        dget (Jwt.signed p secret) s.refreshStore = none →
        ¬ p.exp < now →
        verify_token secret s (.signed p secret) now = .ok p)
    ∧ (∀ (s : SecState) (p : JwtPayload),
        p.exp < now →
        verify_token secret s (.signed p secret) now = .error .expired
          ∧ JwtError.expired.status = 401)
    ∧ (∀ (s : SecState) (p : JwtPayload) (sec : String),
        sec ≠ secret →
        verify_token secret s (.signed p sec) now = .error .invalid
          ∧ JwtError.invalid.status = 401)
    ∧ (∀ (s : SecState) (str : String),
        verify_token secret s (.garbage str) now = .error .invalid) := by
  refine ⟨fun s1 s2 tok => rfl, ?_, ?_, ?_, fun s str => rfl⟩
  · intro s p _ hexp
    simp [verify_token, jwtDecode, hexp]
  · intro s p hexp
    exact ⟨by simp [verify_token, jwtDecode, hexp], rfl⟩
  · intro s p sec hsec
    exact ⟨by simp [verify_token, jwtDecode, hsec], rfl⟩

/-- C9 witness: a concrete revoked-but-valid credential still verifies. -/
theorem C9_verify_stateless_witness :
    verify_token "k" ⟨[], [], [], [], 0⟩
      (.signed { email := some "a@b", exp := 50 } "k") 10 =
      .ok { email := some "a@b", exp := 50 } :=
  (C9_verify_stateless "k" 10).2.1 ⟨[], [], [], [], 0⟩
    { email := some "a@b", exp := 50 } (by decide) (by decide)

/-- C3: for every bounded store, immediately after a maintenance sweep
runs, no stored entry has an expiry timestamp in the past and the store's
size is at most its configured maximum; expired entries are removed first
(a store within capacity after expiry pruning loses nothing else), and
capacity eviction keeps only entries at least as recently
created/updated as every evicted live entry. -/
theorem C3_maintenance_invariant :
    (∀ (cfg : SecConfig) (s : SecState) (now : Time),
      ¬ now - s.lastCleanup < cfg.cleanupInterval →
      (keys s.refreshStore).Nodup → (keys s.csrfStore).Nodup →
      (keys s.loginAttempts).Nodup → (keys s.apiAttempts).Nodup →
      (∀ kv ∈ (run_security_maintenance cfg s now).refreshStore,
          ¬ now > kv.2.exp)
        ∧ (run_security_maintenance cfg s now).refreshStore.length ≤
            cfg.maxRefreshTokens
        ∧ (∀ kv ∈ (run_security_maintenance cfg s now).csrfStore,
            ¬ now > kv.2.exp)
        ∧ (run_security_maintenance cfg s now).csrfStore.length ≤
            cfg.maxCsrfTokens
        ∧ (∀ kv ∈ (run_security_maintenance cfg s now).loginAttempts,
            kv.2 ≠ [] ∧ ∀ ts ∈ kv.2, ts ≥ now - max 1 cfg.rateLimitTrackTTL)
        ∧ (run_security_maintenance cfg s now).loginAttempts.length ≤
            cfg.maxLoginAttemptKeys
        ∧ (∀ kv ∈ (run_security_maintenance cfg s now).apiAttempts,
            kv.2 ≠ [] ∧ ∀ ts ∈ kv.2, ts ≥ now - max 1 cfg.rateLimitTrackTTL)
        ∧ (run_security_maintenance cfg s now).apiAttempts.length ≤
            cfg.maxApiRateKeys)
    ∧ (∀ (tcfg : TaskCfg) (ts : TMState) (now : Time),
        (keys ts.tasks).Nodup →
        (∀ kv ∈ (tm_cleanup tcfg ts now).tasks,
            ¬ now - kv.2.updated_at > (max 5 tcfg.ttlMinutes) * 60)
          ∧ (tm_cleanup tcfg ts now).tasks.length ≤ tcfg.maxItems)
    ∧ (∀ (store : List (String × TokenData)) (now : Time) (m : Nat),
        ((store.filter (fun kv => ¬ now > kv.2.exp)).length ≤ m →
          cleanup_token_store store now m =
            store.filter (fun kv => ¬ now > kv.2.exp))
          ∧ ((keys store).Nodup →
            ∀ kv ∈ cleanup_token_store store now m,
              ∀ ev ∈ store, ¬ now > ev.2.exp →
                ev ∉ cleanup_token_store store now m →
                  ev.2.created_at ≤ kv.2.created_at))
    ∧ (∀ (tcfg : TaskCfg) (ts : TMState) (now : Time),
        (keys ts.tasks).Nodup →
        ∀ kv ∈ (tm_cleanup tcfg ts now).tasks,
          ∀ ev ∈ ts.tasks,
            ¬ now - ev.2.updated_at > (max 5 tcfg.ttlMinutes) * 60 →
              ev ∉ (tm_cleanup tcfg ts now).tasks →
                ev.2.updated_at ≤ kv.2.updated_at) := by
  refine ⟨?_, ?_, ?_, ?_⟩
  · intro cfg s now hrun hnd1 hnd2 hnd3 hnd4
    have hs : run_security_maintenance cfg s now =
        { refreshStore :=
            cleanup_token_store s.refreshStore now cfg.maxRefreshTokens,
          csrfStore := cleanup_token_store s.csrfStore now cfg.maxCsrfTokens,
          loginAttempts := cleanup_attempt_store s.loginAttempts now
            cfg.rateLimitTrackTTL cfg.maxLoginAttemptKeys,
          apiAttempts := cleanup_attempt_store s.apiAttempts now
            cfg.rateLimitTrackTTL cfg.maxApiRateKeys,
          lastCleanup := now } := by
      unfold run_security_maintenance
      rw [if_neg hrun]
    rw [hs]
    exact ⟨cleanup_token_store_no_expired _ _ _,
      cleanup_token_store_length _ _ _ hnd1,
      cleanup_token_store_no_expired _ _ _,
      cleanup_token_store_length _ _ _ hnd2,
      cleanup_attempt_store_entries _ _ _ _,
      cleanup_attempt_store_length _ _ _ _ hnd3,
      cleanup_attempt_store_entries _ _ _ _,
      cleanup_attempt_store_length _ _ _ _ hnd4⟩
  · intro tcfg ts now hnd
    exact ⟨tm_cleanup_no_expired tcfg ts now, tm_cleanup_length tcfg ts now hnd⟩
  · intro store now m
    exact ⟨cleanup_token_store_within store now m,
      fun hnd => cleanup_token_store_order store now m hnd⟩
  · intro tcfg ts now hnd
    exact tm_cleanup_order tcfg ts now hnd

/-- C3 witness: the sweep invariant evaluated on a concrete over-TTL
store. -/
theorem C3_maintenance_invariant_witness :
    (run_security_maintenance ⟨5, 600, 100, 200, 100, 100, 30⟩
        ⟨[], [("c", ⟨"a@b", -3, -4⟩)], [], [("k", [-1000000])], -100⟩
        0).csrfStore.length ≤ 200 :=
  ((C3_maintenance_invariant.1 ⟨5, 600, 100, 200, 100, 100, 30⟩
    ⟨[], [("c", ⟨"a@b", -3, -4⟩)], [], [("k", [-1000000])], -100⟩ 0
    (by decide) (by decide) (by decide) (by decide) (by decide)).2.2.2).1

/-- C2: refresh succeeds only if the literal credential is present in the
refresh store; an absent credential — in particular one just revoked —
fails with Unauthorized (401) even when correctly signed, unexpired,
refresh-typed and owned by a known user; a wrong type-claim, an unknown or
empty owning identity, and a decode failure also fail with 401; on success
a fresh access credential is minted. -/
theorem C2_refresh_requires_store (secret : String) (accessTTL : Int)
    (users : List (String × UserRec)) (store : List (Jwt × TokenData))
    (tok : Jwt) (now : Time) :
    (dget tok store = none →
      refresh_access_token secret accessTTL users store tok now =
        (.error .notIssued, store) ∧ RefreshErr.notIssued.status = 401)
    ∧ (∀ s : SecState, (keys s.refreshStore).Nodup →
        refresh_access_token secret accessTTL users
            (revoke_refresh_token s tok).refreshStore tok now =
          (.error .notIssued, (revoke_refresh_token s tok).refreshStore))
    ∧ (∀ d p, dget tok store = some d → tok = .signed p secret →
        ¬ p.exp < now → p.typ ≠ some "refresh" →
        refresh_access_token secret accessTTL users store tok now =
          (.error .badType, store) ∧ RefreshErr.badType.status = 401)
    ∧ (∀ d p, dget tok store = some d → tok = .signed p secret →
        ¬ p.exp < now → p.typ = some "refresh" → p.email = none →
        refresh_access_token secret accessTTL users store tok now =
          (.error .unknownUser, store) ∧ RefreshErr.unknownUser.status = 401)
    ∧ (∀ d p em, dget tok store = some d → tok = .signed p secret →
        ¬ p.exp < now → p.typ = some "refresh" → p.email = some em →
        (em = "" ∨ dget em users = none) →
        refresh_access_token secret accessTTL users store tok now =
          (.error .unknownUser, store))
    ∧ (∀ d, dget tok store = some d →
        jwtDecode secret tok now = .error .invalid →
        refresh_access_token secret accessTTL users store tok now =
          (.error .invalid, store) ∧ RefreshErr.invalid.status = 401)
    ∧ (∀ d, dget tok store = some d →
        jwtDecode secret tok now = .error .expired →
        refresh_access_token secret accessTTL users store tok now =
          (.error .expired, dpop tok store) ∧ RefreshErr.expired.status = 401)
    ∧ (∀ d p em u, dget tok store = some d → tok = .signed p secret →
        ¬ p.exp < now → p.typ = some "refresh" → p.email = some em →
        em ≠ "" → dget em users = some u →
        refresh_access_token secret accessTTL users store tok now =
          (.ok (create_access_token secret accessTTL em u.name u.role now),
            store))
    ∧ (∀ res st',
        refresh_access_token secret accessTTL users store tok now =
          (.ok res, st') → dget tok store ≠ none) := by
  refine ⟨?_, ?_, ?_, ?_, ?_, ?_, ?_, ?_, ?_⟩
  · intro h
    exact ⟨by simp [refresh_access_token, h], rfl⟩
  · intro s hnd
    have h : dget tok (revoke_refresh_token s tok).refreshStore = none :=
      dget_dpop_self tok s.refreshStore hnd
    simp [refresh_access_token, h]
  · intro d p hget hsig hexp htyp
    subst hsig
    refine ⟨?_, rfl⟩
    simp [refresh_access_token, hget, jwtDecode, hexp, htyp]
  · intro d p hget hsig hexp htyp hemail
    subst hsig
    refine ⟨?_, rfl⟩
    simp [refresh_access_token, hget, jwtDecode, hexp, htyp, hemail]
  · intro d p em hget hsig hexp htyp hemail hcase
    subst hsig
    rcases hcase with hem | hu
    · simp [refresh_access_token, hget, jwtDecode, hexp, htyp, hemail, hem]
    · by_cases hem : em = ""
      · simp [refresh_access_token, hget, jwtDecode, hexp, htyp, hemail, hem]
      · simp [refresh_access_token, hget, jwtDecode, hexp, htyp, hemail, hem,
          hu]
  · intro d hget hdec
    refine ⟨?_, rfl⟩
    simp [refresh_access_token, hget, hdec]
  · intro d hget hdec
    refine ⟨?_, rfl⟩
    simp [refresh_access_token, hget, hdec]
  · intro d p em u hget hsig hexp htyp hemail hem huser
    subst hsig
    simp [refresh_access_token, hget, jwtDecode, hexp, htyp, hemail, hem,
      huser]
  · intro res st' hres hnone
    simp [refresh_access_token, hnone] at hres

/-- C2 witness: a concrete revoked (absent) but correctly-signed,
unexpired, refresh-typed credential of a known user is rejected. -/
theorem C2_refresh_requires_store_witness :
    refresh_access_token "k" 3600 [("a@b", ⟨"A", "employee"⟩)] []
        (.signed { email := some "a@b", typ := some "refresh", exp := 100 }
          "k") 0 =
      (.error .notIssued, []) ∧ RefreshErr.notIssued.status = 401 :=
  (C2_refresh_requires_store "k" 3600 [("a@b", ⟨"A", "employee"⟩)] []
    (.signed { email := some "a@b", typ := some "refresh", exp := 100 } "k")
    0).1 (by decide)

/-- C10: a failed anti-forgery verification that is not expiry-triggered
leaves the token store unchanged — an identity-mismatch rejection (403)
and an unknown-token rejection (403) both return the state exactly as it
was, the mismatched token remains stored and is still successfully
verifiable by the identity it was issued to; only an expiry-triggered
rejection removes the token inside `verify_csrf_token`. -/
theorem C10_mismatch_preserves_store (cfg : SecConfig) (s : SecState)
    (t e' : String) (now : Time) (d : TokenData)
    (hskip : now - s.lastCleanup < cfg.cleanupInterval)
    (hget : dget t s.csrfStore = some d)
    (hexp : ¬ now > d.exp) :
    (d.email ≠ e' →
      verify_csrf_token cfg s t e' now = (.error .mismatch, s)
        ∧ CsrfErr.mismatch.status = 403)
    ∧ (∀ u e'', dget u s.csrfStore = none →
        verify_csrf_token cfg s u e'' now = (.error .invalid, s)
          ∧ CsrfErr.invalid.status = 403)
    ∧ (∀ now', now' - s.lastCleanup < cfg.cleanupInterval →
        ¬ now' > d.exp →
        verify_csrf_token cfg s t d.email now' = (.ok (), s))
    ∧ (∀ e'', (verify_csrf_token cfg s t e'' now).1 ≠ .error .expired →
        (verify_csrf_token cfg s t e'' now).2 = s)
    ∧ (∀ (s2 : SecState) (t2 e2 : String) (now2 : Time) (d2 : TokenData),
        now2 - s2.lastCleanup < cfg.cleanupInterval →
        dget t2 s2.csrfStore = some d2 → now2 > d2.exp →
        verify_csrf_token cfg s2 t2 e2 now2 =
          (.error .expired, { s2 with csrfStore := dpop t2 s2.csrfStore })) := by
  have hm := maintenance_skip cfg s now hskip
  refine ⟨?_, ?_, ?_, ?_, ?_⟩
  · intro hmm
    exact ⟨by simp [verify_csrf_token, hm, hget, hexp, hmm], rfl⟩
  · intro u e'' hnone
    exact ⟨by simp [verify_csrf_token, hm, hnone], rfl⟩
  · intro now' hskip' hexp'
    have hm' := maintenance_skip cfg s now' hskip'
    simp [verify_csrf_token, hm', hget, hexp']
  · intro e''
    by_cases hmm : d.email ≠ e''
    · simp [verify_csrf_token, hm, hget, hexp, hmm]
    · simp [verify_csrf_token, hm, hget, hexp, hmm]
  · intro s2 t2 e2 now2 d2 hskip2 hget2 hexp2
    have hm2 := maintenance_skip cfg s2 now2 hskip2
    simp [verify_csrf_token, hm2, hget2, hexp2]

/-- C10 witness: a concrete mismatch rejection leaves the store unchanged
and the token verifiable by its owner. -/
theorem C10_mismatch_preserves_store_witness :
    (TokenData.email ⟨"a@b", 100, 0⟩ ≠ "x@y" →
      verify_csrf_token ⟨5, 600, 100, 200, 100, 100, 30⟩
          ⟨[], [("t", ⟨"a@b", 100, 0⟩)], [], [], 0⟩ "t" "x@y" 1 =
        (.error .mismatch, ⟨[], [("t", ⟨"a@b", 100, 0⟩)], [], [], 0⟩)
          ∧ CsrfErr.mismatch.status = 403) ∧
    (verify_csrf_token ⟨5, 600, 100, 200, 100, 100, 30⟩
        ⟨[], [("t", ⟨"a@b", 100, 0⟩)], [], [], 0⟩ "t"
        (TokenData.email ⟨"a@b", 100, 0⟩) 2 =
      (.ok (), ⟨[], [("t", ⟨"a@b", 100, 0⟩)], [], [], 0⟩)) := by
  have h := C10_mismatch_preserves_store ⟨5, 600, 100, 200, 100, 100, 30⟩
    ⟨[], [("t", ⟨"a@b", 100, 0⟩)], [], [], 0⟩ "t" "x@y" 1 ⟨"a@b", 100, 0⟩
    (by decide) (by decide) (by decide)
  exact ⟨h.1, h.2.2.1 2 (by decide) (by decide)⟩

/-- C1: for a stored, unexpired anti-forgery token `t` issued to identity
`e`, `rotate_csrf_token (t, e)` succeeds, returns the fresh token, removes
`t` from the token store in the same operation and stores the fresh token;
every subsequent verification of `t` — by any identity, at any time —
fails with Forbidden (403). -/
theorem C1_csrf_single_use (cfg : SecConfig) (s : SecState)
    (t e freshTok : String) (now : Time) (d : TokenData)
    (hskip : now - s.lastCleanup < cfg.cleanupInterval)
    (hnd : (keys s.csrfStore).Nodup)
    (hget : dget t s.csrfStore = some d)
    (hemail : d.email = e)
    (hexp : ¬ now > d.exp)
    (hfresh : freshTok ≠ t) :
    ∃ s1, rotate_csrf_token cfg s t e now freshTok = (.ok freshTok, s1)
      ∧ dget t s1.csrfStore = none
      ∧ dget freshTok s1.csrfStore =
          some ⟨e, now + cfg.csrfExpireMinutes * 60, now⟩
      ∧ ∀ (e' : String) (now' : Time),
          (verify_csrf_token cfg s1 t e' now').1 = .error .invalid
          ∧ CsrfErr.invalid.status = 403 := by
  have hm := maintenance_skip cfg s now hskip
  have hver : verify_csrf_token cfg s t e now = (.ok (), s) := by
    simp [verify_csrf_token, hm, hget, hexp, hemail]
  have hs2store : (invalidate_csrf_token s t).csrfStore = dpop t s.csrfStore :=
    rfl
  have hskip2 :
      now - (invalidate_csrf_token s t).lastCleanup < cfg.cleanupInterval :=
    hskip
  have hm2 := maintenance_skip cfg (invalidate_csrf_token s t) now hskip2
  have hrot : rotate_csrf_token cfg s t e now freshTok =
      (.ok freshTok,
        { invalidate_csrf_token s t with
            csrfStore := dinsert freshTok
              ⟨e, now + cfg.csrfExpireMinutes * 60, now⟩
              (dpop t s.csrfStore) }) := by
    rw [rotate_csrf_token, hver]
    simp only [create_csrf_token, hm2]
    rfl
  refine ⟨_, hrot, ?_, dget_dinsert_self _ _ _, ?_⟩
  · rw [dget_dinsert_ne freshTok t _ _ (fun h => hfresh h.symm)]
    exact dget_dpop_self t s.csrfStore hnd
  · intro e' now'
    have hnone : dget t (dinsert freshTok
        (⟨e, now + cfg.csrfExpireMinutes * 60, now⟩ : TokenData)
        (dpop t s.csrfStore)) = none := by
      rw [dget_dinsert_ne freshTok t _ _ (fun h => hfresh h.symm)]
      exact dget_dpop_self t s.csrfStore hnd
    refine ⟨?_, rfl⟩
    have hafter := dget_csrf_maintenance_none cfg
      { invalidate_csrf_token s t with
          csrfStore := dinsert freshTok
            ⟨e, now + cfg.csrfExpireMinutes * 60, now⟩
            (dpop t s.csrfStore) } now' t hnone
    simp [verify_csrf_token, hafter]

/-- C1 witness: a concrete token is rotated once and then rejected. -/
theorem C1_csrf_single_use_witness :
    ∃ s1, rotate_csrf_token ⟨5, 600, 100, 200, 100, 100, 30⟩
        ⟨[], [("t", ⟨"a@b", 100, 0⟩)], [], [], 0⟩ "t" "a@b" 1 "u" =
        (.ok "u", s1)
      ∧ dget "t" s1.csrfStore = none
      ∧ dget "u" s1.csrfStore = some ⟨"a@b", 1 + 30 * 60, 1⟩
      ∧ ∀ (e' : String) (now' : Time),
          (verify_csrf_token ⟨5, 600, 100, 200, 100, 100, 30⟩ s1 "t" e'
            now').1 = .error .invalid
          ∧ CsrfErr.invalid.status = 403 :=
  C1_csrf_single_use ⟨5, 600, 100, 200, 100, 100, 30⟩
    ⟨[], [("t", ⟨"a@b", 100, 0⟩)], [], [], 0⟩ "t" "a@b" "u" 1 ⟨"a@b", 100, 0⟩
    (by decide) (by decide) (by decide) (by decide) (by decide) (by decide)

/-- Step lemma: an accepted `_check_sliding_window` call (fewer than
`limit` timestamps survive the window prune) records `now`. -/
theorem check_sliding_window_allowed (cfg : SecConfig) (s : SecState)
    (key : String) (limit : Nat) (w : Int) (now : Time) (l l' : List Time)
    (hskip : now - s.lastCleanup < cfg.cleanupInterval)
    (hl : ddgetList key s.apiAttempts = l)
    (hl' : l.filter (fun ts => now - ts < w) = l')
    (hlt : l'.length < limit) :
    check_sliding_window cfg s key limit w now =
      some ((true, 0),
        { s with apiAttempts := dinsert key (l' ++ [now]) s.apiAttempts }) := by
  have hm := maintenance_skip cfg s now hskip
  simp only [check_sliding_window, hm, hl, hl']
  rw [if_neg (by omega)]

/-- Step lemma: a rejected `_check_sliding_window` call computes
`retry_after = max 1 (window - (now - oldest))` and writes back the pruned
list. -/
theorem check_sliding_window_rejected (cfg : SecConfig) (s : SecState)
    (key : String) (limit : Nat) (w : Int) (now : Time) (l : List Time)
    (oldest : Time) (rest : List Time)
    (hskip : now - s.lastCleanup < cfg.cleanupInterval)
    (hl : ddgetList key s.apiAttempts = l)
    (hl' : l.filter (fun ts => now - ts < w) = oldest :: rest)
    (hge : (oldest :: rest).length ≥ limit) :
    check_sliding_window cfg s key limit w now =
      some ((false, max 1 (w - (now - oldest))),
        { s with apiAttempts := dinsert key (oldest :: rest) s.apiAttempts })
    := by
  have hm := maintenance_skip cfg s now hskip
  simp only [check_sliding_window, hm, hl, hl']
  rw [if_pos hge]

/-- C4: with `limit=3, window=60`, for any key starting from an empty
attempt list and any in-window call times `t1 ≤ t2 ≤ t3 ≤ t4`
(`t4 - t1 < 60`), the first three calls are allowed, the fourth is
rejected with `retry_after = max 1 (60 - (t4 - t1))` which is `> 0` and
`≤ 60`, and once `t5` is at least a window past every recorded timestamp
(`t5 - t3 ≥ 60`) a fifth call is allowed again. -/
theorem C4_sliding_window (cfg : SecConfig) (s0 : SecState) (k : String)
    (t1 t2 t3 t4 t5 : Int)
    (hempty : ddgetList k s0.apiAttempts = [])
    (h12 : t1 ≤ t2) (h23 : t2 ≤ t3) (h34 : t3 ≤ t4)
    (hwin : t4 - t1 < 60) (h5 : t5 - t3 ≥ 60)
    (hsk1 : t1 - s0.lastCleanup < cfg.cleanupInterval)
    (hsk2 : t2 - s0.lastCleanup < cfg.cleanupInterval)
    (hsk3 : t3 - s0.lastCleanup < cfg.cleanupInterval)
    (hsk4 : t4 - s0.lastCleanup < cfg.cleanupInterval)
    (hsk5 : t5 - s0.lastCleanup < cfg.cleanupInterval) :
    ∃ s1 s2 s3 s4 s5,
      check_sliding_window cfg s0 k 3 60 t1 = some ((true, 0), s1)
      ∧ check_sliding_window cfg s1 k 3 60 t2 = some ((true, 0), s2)
      ∧ check_sliding_window cfg s2 k 3 60 t3 = some ((true, 0), s3)
      ∧ check_sliding_window cfg s3 k 3 60 t4 =
          some ((false, max 1 (60 - (t4 - t1))), s4)
      ∧ 0 < max 1 (60 - (t4 - t1)) ∧ max 1 (60 - (t4 - t1)) ≤ 60
      ∧ check_sliding_window cfg s4 k 3 60 t5 = some ((true, 0), s5) := by
  have hc1 := check_sliding_window_allowed cfg s0 k 3 60 t1 [] []
    hsk1 hempty rfl (by simp)
  set s1 : SecState :=
    { s0 with apiAttempts := dinsert k ([] ++ [t1]) s0.apiAttempts } with hs1
  have hget1 : ddgetList k s1.apiAttempts = [t1] := by
    simp [ddgetList, hs1, dget_dinsert_self]
  have hf1 : [t1].filter (fun ts => t2 - ts < 60) = [t1] := by
    have ha : t2 - t1 < 60 := by omega
    simp [ha]
  have hc2 := check_sliding_window_allowed cfg s1 k 3 60 t2 [t1] [t1]
    hsk2 hget1 hf1 (by simp)
  set s2 : SecState :=
    { s1 with apiAttempts := dinsert k ([t1] ++ [t2]) s1.apiAttempts } with hs2
  have hget2 : ddgetList k s2.apiAttempts = [t1, t2] := by
    simp [ddgetList, hs2, dget_dinsert_self]
  have hf2 : [t1, t2].filter (fun ts => t3 - ts < 60) = [t1, t2] := by
    have ha : t3 - t1 < 60 := by omega
    have hb : t3 - t2 < 60 := by omega
    simp [ha, hb]
  have hc3 := check_sliding_window_allowed cfg s2 k 3 60 t3 [t1, t2] [t1, t2]
    hsk3 hget2 hf2 (by simp)
  set s3 : SecState :=
    { s2 with apiAttempts := dinsert k ([t1, t2] ++ [t3]) s2.apiAttempts }
    with hs3
  have hget3 : ddgetList k s3.apiAttempts = [t1, t2, t3] := by
    simp [ddgetList, hs3, dget_dinsert_self]
  have hf3 : [t1, t2, t3].filter (fun ts => t4 - ts < 60) = [t1, t2, t3] := by
    have ha : t4 - t1 < 60 := by omega
    have hb : t4 - t2 < 60 := by omega
    have hc : t4 - t3 < 60 := by omega
    simp [ha, hb, hc]
  have hc4 := check_sliding_window_rejected cfg s3 k 3 60 t4 [t1, t2, t3]
    t1 [t2, t3] hsk4 hget3 hf3 (by simp)
  set s4 : SecState :=
    { s3 with apiAttempts := dinsert k [t1, t2, t3] s3.apiAttempts } with hs4
  have hget4 : ddgetList k s4.apiAttempts = [t1, t2, t3] := by
    simp [ddgetList, hs4, dget_dinsert_self]
  have hf4 : [t1, t2, t3].filter (fun ts => t5 - ts < 60) = [] := by
    have ha : ¬ t5 - t1 < 60 := by omega
    have hb : ¬ t5 - t2 < 60 := by omega
    have hc : ¬ t5 - t3 < 60 := by omega
    simp [ha, hb, hc]
  have hc5 := check_sliding_window_allowed cfg s4 k 3 60 t5 [t1, t2, t3] []
    hsk5 hget4 hf4 (by simp)
  exact ⟨s1, s2, s3, s4, _, hc1, hc2, hc3, hc4, by omega, by omega, hc5⟩

/-- C4 witness: the concrete trace 0, 1, 2, 3, 62 from an empty store. -/
theorem C4_sliding_window_witness :
    ∃ s1 s2 s3 s4 s5,
      check_sliding_window ⟨1000, 600, 100, 200, 100, 100, 30⟩
          ⟨[], [], [], [], 0⟩ "k" 3 60 0 = some ((true, 0), s1)
      ∧ check_sliding_window ⟨1000, 600, 100, 200, 100, 100, 30⟩ s1
          "k" 3 60 1 = some ((true, 0), s2)
      ∧ check_sliding_window ⟨1000, 600, 100, 200, 100, 100, 30⟩ s2
          "k" 3 60 2 = some ((true, 0), s3)
      ∧ check_sliding_window ⟨1000, 600, 100, 200, 100, 100, 30⟩ s3
          "k" 3 60 3 = some ((false, max 1 (60 - ((3:Int) - 0))), s4)
      ∧ (0:Int) < max 1 (60 - ((3:Int) - 0))
      ∧ max 1 (60 - ((3:Int) - 0)) ≤ 60
      ∧ check_sliding_window ⟨1000, 600, 100, 200, 100, 100, 30⟩ s4
          "k" 3 60 62 = some ((true, 0), s5) :=
  C4_sliding_window ⟨1000, 600, 100, 200, 100, 100, 30⟩ ⟨[], [], [], [], 0⟩
    "k" 0 1 2 3 62 (by decide) (by decide) (by decide) (by decide)
    (by decide) (by decide) (by decide) (by decide) (by decide) (by decide)
    (by decide)

/-! ## Lemmas: route-metrics collector -/

section MetricsLemmas

theorem mem_keys_iff_dget {κ α : Type} [DecidableEq κ] (k : κ)
    (st : List (κ × α)) : k ∈ keys st ↔ dget k st ≠ none := by
  rw [Ne, dget_eq_none_iff]
  simp only [keys, List.mem_map]
  constructor
  · rintro ⟨kv, hkv, rfl⟩ h
    exact h kv hkv rfl
  · intro h
    by_contra hc
    exact h (fun kv hkv heq => hc ⟨kv, hkv, heq⟩)

theorem record_request_routes (maxR : Nat) (s : MetricsState) (r : Req) :
    ∃ m, (record_request maxR s r).routes =
      dinsert (resolve_route_key maxR s.routes r.method r.path).1 m
        s.routes := by
  by_cases h : (resolve_route_key maxR s.routes r.method r.path).2
  · apply Exists.intro
    simp only [record_request, h, if_true]
    try rfl
  · apply Exists.intro
    simp only [record_request, h, if_false, Bool.false_eq_true]
    try rfl

theorem record_request_overflow (maxR : Nat) (s : MetricsState) (r : Req) :
    (record_request maxR s r).overflowRequests =
      if (resolve_route_key maxR s.routes r.method r.path).2 then
        s.overflowRequests + 1
      else s.overflowRequests := by
  by_cases h : (resolve_route_key maxR s.routes r.method r.path).2 <;>
    simp [record_request, h]

theorem resolve_route_key_cases (maxR : Nat)
    (routes : List (String × RouteMetric)) (method path : String) :
    (dget (pyUpper method ++ " " ++ path) routes ≠ none
      ∧ resolve_route_key maxR routes method path =
          (pyUpper method ++ " " ++ path, false))
    ∨ (dget (pyUpper method ++ " " ++ path) routes = none
      ∧ routes.length < maxR - 1
      ∧ resolve_route_key maxR routes method path =
          (pyUpper method ++ " " ++ path, false))
    ∨ (dget (pyUpper method ++ " " ++ path) routes = none
      ∧ ¬ routes.length < maxR - 1
      ∧ resolve_route_key maxR routes method path =
          (overflowRouteKey, true)) := by
  by_cases h1 : (dget (pyUpper method ++ " " ++ path) routes).isSome
  · left
    refine ⟨by simp [Option.isSome_iff_ne_none] at h1; exact h1, ?_⟩
    simp [resolve_route_key, h1]
  · by_cases h2 : routes.length < maxR - 1
    · right; left
      refine ⟨by simpa [Option.isSome_iff_ne_none] using h1, h2, ?_⟩
      simp [resolve_route_key, h1, h2]
    · right; right
      refine ⟨by simpa [Option.isSome_iff_ne_none] using h1, h2, ?_⟩
      simp [resolve_route_key, h1, h2]

theorem record_request_step (maxR : Nat) (hm : 1 ≤ maxR) (s : MetricsState)
    (r : Req) :
    (s.routes.length ≤ maxR →
      (s.routes.length = maxR → overflowRouteKey ∈ keys s.routes) →
      (record_request maxR s r).routes.length ≤ maxR
        ∧ ((record_request maxR s r).routes.length = maxR →
            overflowRouteKey ∈ keys (record_request maxR s r).routes))
    ∧ (∀ k, k ∈ keys s.routes →
        k ∈ keys (record_request maxR s r).routes)
    ∧ s.overflowRequests ≤ (record_request maxR s r).overflowRequests
    ∧ ((record_request maxR s r).overflowRequests = 0 →
        s.overflowRequests = 0
          ∧ reqKey r ∈ keys (record_request maxR s r).routes
          ∧ (s.routes.length ≤ maxR - 1 →
              (record_request maxR s r).routes.length ≤ maxR - 1))
    ∧ ((record_request maxR s r).overflowRequests ≠ s.overflowRequests →
        overflowRouteKey ∈ keys (record_request maxR s r).routes) := by
  obtain ⟨m, hroutes⟩ := record_request_routes maxR s r
  have hover := record_request_overflow maxR s r
  rcases resolve_route_key_cases maxR s.routes r.method r.path with
    ⟨hne, hres⟩ | ⟨hnone, hlt, hres⟩ | ⟨hnone, hge, hres⟩
  · -- already-tracked route key
    obtain ⟨v, hv⟩ := Option.ne_none_iff_exists'.mp hne
    rw [hres] at hroutes hover
    refine ⟨?_, ?_, ?_, ?_, ?_⟩
    · intro h1 h2
      rw [hroutes, length_dinsert_present _ _ _ _ hv,
        keys_dinsert_present _ _ _ _ hv]
      exact ⟨h1, h2⟩
    · intro k hk
      rw [hroutes]
      exact keys_dinsert_mono _ _ _ _ hk
    · simp [hover]
    · intro h0
      rw [hover] at h0
      simp at h0
      refine ⟨h0, ?_, ?_⟩
      · rw [hroutes]
        exact mem_keys_dinsert_self _ _ _
      · intro hle
        rw [hroutes, length_dinsert_present _ _ _ _ hv]
        exact hle
    · intro hne'
      rw [hover] at hne'
      simp at hne'
  · -- a fresh route key admitted below the cardinality cap
    rw [hres] at hroutes hover
    refine ⟨?_, ?_, ?_, ?_, ?_⟩
    · intro h1 h2
      rw [hroutes, length_dinsert_absent _ _ _ hnone]
      omega
    · intro k hk
      rw [hroutes]
      exact keys_dinsert_mono _ _ _ _ hk
    · simp [hover]
    · intro h0
      rw [hover] at h0
      simp at h0
      refine ⟨h0, ?_, ?_⟩
      · rw [hroutes]
        exact mem_keys_dinsert_self _ _ _
      · intro hle
        rw [hroutes, length_dinsert_absent _ _ _ hnone]
        omega
    · intro hne'
      rw [hover] at hne'
      simp at hne'
  · -- the overflow bucket absorbs the route
    rw [hres] at hroutes hover
    refine ⟨?_, ?_, ?_, ?_, ?_⟩
    · intro h1 h2
      by_cases hov : dget overflowRouteKey s.routes = none
      · have hnotmem : overflowRouteKey ∉ keys s.routes := by
          rw [mem_keys_iff_dget]
          simp [hov]
        have hlen : s.routes.length ≤ maxR - 1 := by
          rcases Nat.lt_or_ge s.routes.length maxR with h | h
          · omega
          · have : s.routes.length = maxR := le_antisymm h1 h
            exact absurd (h2 this) hnotmem
        rw [hroutes, length_dinsert_absent _ _ _ hov]
        constructor
        · omega
        · intro _
          rw [hroutes] at *
          exact mem_keys_dinsert_self _ _ _
      · obtain ⟨v, hv⟩ := Option.ne_none_iff_exists'.mp hov
        rw [hroutes, length_dinsert_present _ _ _ _ hv,
          keys_dinsert_present _ _ _ _ hv]
        exact ⟨h1, h2⟩
    · intro k hk
      rw [hroutes]
      exact keys_dinsert_mono _ _ _ _ hk
    · rw [hover]
      have hc : ((overflowRouteKey, true).2 = true) := rfl
      rw [if_pos hc]
      omega
    · intro h0
      rw [hover] at h0
      simp at h0
    · intro _
      rw [hroutes]
      exact mem_keys_dinsert_self _ _ _

theorem record_all_length_inv (maxR : Nat) (hm : 1 ≤ maxR) (rs : List Req) :
    ∀ s : MetricsState, s.routes.length ≤ maxR →
      (s.routes.length = maxR → overflowRouteKey ∈ keys s.routes) →
      (record_all maxR s rs).routes.length ≤ maxR
        ∧ ((record_all maxR s rs).routes.length = maxR →
            overflowRouteKey ∈ keys (record_all maxR s rs).routes) := by
  induction rs with
  | nil => exact fun s h1 h2 => ⟨h1, h2⟩
  | cons r rs ih =>
      intro s h1 h2
      have hstep := (record_request_step maxR hm s r).1 h1 h2
      exact ih (record_request maxR s r) hstep.1 hstep.2

theorem record_all_keys_mono (maxR : Nat) (rs : List Req) :
    ∀ (s : MetricsState) (k : String), k ∈ keys s.routes →
      k ∈ keys (record_all maxR s rs).routes := by
  induction rs with
  | nil => exact fun s k h => h
  | cons r rs ih =>
      intro s k hk
      by_cases hm : 1 ≤ maxR
      · exact ih _ k ((record_request_step maxR hm s r).2.1 k hk)
      · obtain ⟨m, hroutes⟩ := record_request_routes maxR s r
        refine ih _ k ?_
        rw [hroutes]
        exact keys_dinsert_mono _ _ _ _ hk

theorem record_all_overflow_mono (maxR : Nat) (hm : 1 ≤ maxR)
    (rs : List Req) :
    ∀ s : MetricsState,
      s.overflowRequests ≤ (record_all maxR s rs).overflowRequests := by
  induction rs with
  | nil => exact fun s => le_refl _
  | cons r rs ih =>
      intro s
      exact le_trans (record_request_step maxR hm s r).2.2.1
        (ih (record_request maxR s r))

theorem record_all_no_overflow (maxR : Nat) (hm : 1 ≤ maxR) (rs : List Req) :
    ∀ s : MetricsState,
      (record_all maxR s rs).overflowRequests = 0 →
      s.routes.length ≤ maxR - 1 →
      (record_all maxR s rs).routes.length ≤ maxR - 1
        ∧ ∀ r ∈ rs, reqKey r ∈ keys (record_all maxR s rs).routes := by
  induction rs with
  | nil =>
      intro s h0 hlen
      exact ⟨hlen, by simp⟩
  | cons r rs ih =>
      intro s h0 hlen
      have hstep0 : (record_request maxR s r).overflowRequests = 0 := by
        have hmono :=
          record_all_overflow_mono maxR hm rs (record_request maxR s r)
        have h0' : (record_all maxR (record_request maxR s r)
            rs).overflowRequests = 0 := h0
        omega
      have hstep := (record_request_step maxR hm s r).2.2.2.1 hstep0
      have hrec := ih (record_request maxR s r) h0 (hstep.2.2 hlen)
      refine ⟨hrec.1, ?_⟩
      intro r' hr'
      rcases List.mem_cons.mp hr' with rfl | hr'
      · exact record_all_keys_mono maxR rs _ _ hstep.2.1
      · exact hrec.2 r' hr'

theorem record_all_overflow_present (maxR : Nat) (hm : 1 ≤ maxR)
    (rs : List Req) :
    ∀ s : MetricsState,
      (0 < s.overflowRequests → overflowRouteKey ∈ keys s.routes) →
      0 < (record_all maxR s rs).overflowRequests →
      overflowRouteKey ∈ keys (record_all maxR s rs).routes := by
  induction rs with
  | nil => exact fun s h h0 => h h0
  | cons r rs ih =>
      intro s h h0
      refine ih (record_request maxR s r) ?_ h0
      intro hpos
      by_cases hch : (record_request maxR s r).overflowRequests =
          s.overflowRequests
      · have := h (hch ▸ hpos)
        exact (record_request_step maxR hm s r).2.1 _ this
      · exact (record_request_step maxR hm s r).2.2.2.2 hch

end MetricsLemmas

/-- C5: the number of tracked route entries never exceeds `max_routes`
for any trace recorded from the initial state; recording more distinct
routes than `max_routes - 1` forces an overflow-route entry and a positive
overflow counter; and once at least `max_routes - 1` routes are tracked,
every further distinct route resolves to the overflow bucket. -/
theorem C5_metrics_cardinality_cap (maxR : Nat) (hm : 1 ≤ maxR)
    (rs : List Req) :
    (record_all maxR metricsInit rs).routes.length ≤ maxR
    ∧ (((rs.map reqKey).dedup).length > maxR - 1 →
        overflowRouteKey ∈ keys (record_all maxR metricsInit rs).routes
          ∧ 0 < (record_all maxR metricsInit rs).overflowRequests)
    ∧ (∀ (routes : List (String × RouteMetric)) (method path : String),
        dget (pyUpper method ++ " " ++ path) routes = none →
        maxR - 1 ≤ routes.length →
        resolve_route_key maxR routes method path =
          (overflowRouteKey, true)) := by
  have hbase1 : metricsInit.routes.length ≤ maxR := by simp [metricsInit]
  have hbase2 : metricsInit.routes.length = maxR →
      overflowRouteKey ∈ keys metricsInit.routes := by
    simp only [metricsInit]
    simp
    omega
  refine ⟨(record_all_length_inv maxR hm rs metricsInit hbase1 hbase2).1,
    ?_, ?_⟩
  · intro hdist
    by_cases h0 : (record_all maxR metricsInit rs).overflowRequests = 0
    · exfalso
      have hno := record_all_no_overflow maxR hm rs metricsInit h0
        (by simp [metricsInit])
      have hsub : (rs.map reqKey).dedup ⊆
          keys (record_all maxR metricsInit rs).routes := by
        intro x hx
        rw [List.mem_dedup] at hx
        obtain ⟨r, hr, rfl⟩ := List.mem_map.mp hx
        exact hno.2 r hr
      have hnd : ((rs.map reqKey).dedup).Nodup := List.nodup_dedup _
      have hlen := (hnd.subperm hsub).length_le
      have hkeys : (keys (record_all maxR metricsInit rs).routes).length =
          (record_all maxR metricsInit rs).routes.length :=
        List.length_map _ _
      have := hno.1
      omega
    · have hpos : 0 < (record_all maxR metricsInit rs).overflowRequests :=
        Nat.pos_of_ne_zero h0
      exact ⟨record_all_overflow_present maxR hm rs metricsInit
        (by simp [metricsInit]) hpos, hpos⟩
  · intro routes method path hnone hge
    have hno : ¬ (dget (pyUpper method ++ " " ++ path) routes).isSome := by
      simp [hnone]
    have hlt : ¬ routes.length < maxR - 1 := by omega
    simp [resolve_route_key, hno, hlt]

/-- C5 witness: with `max_routes = 2`, two distinct routes overflow. -/
theorem C5_metrics_cardinality_cap_witness :
    (record_all 2 metricsInit
        [⟨"GET", "/a", 200, 5⟩, ⟨"GET", "/b", 200, 5⟩]).routes.length ≤ 2
    ∧ (overflowRouteKey ∈ keys (record_all 2 metricsInit
          [⟨"GET", "/a", 200, 5⟩, ⟨"GET", "/b", 200, 5⟩]).routes
        ∧ 0 < (record_all 2 metricsInit
            [⟨"GET", "/a", 200, 5⟩, ⟨"GET", "/b", 200, 5⟩]).overflowRequests)
    := by
  have h := C5_metrics_cardinality_cap 2 (by decide)
    [⟨"GET", "/a", 200, 5⟩, ⟨"GET", "/b", 200, 5⟩]
  exact ⟨h.1, h.2.1 (by decide)⟩

/-- C7: `get_task` returns a defensive copy — its `details` field is a
freshly allocated list object, so writing any list through the returned
address (and any change to the returned record value) leaves the stored
task and its stored details list unchanged, and a subsequent read returns
the same visible content as the first read. -/
theorem C7_defensive_copy (cfg : TaskCfg) (s : TMState) (id : String)
    (b : Bool) (now : Time) (t : TaskRec) (v : TaskView) (s1 : TMState)
    (hnd : (keys s.tasks).Nodup)
    (ht : dget id s.tasks = some t)
    (hexp : ¬ now - t.updated_at > (max 5 cfg.ttlMinutes) * 60)
    (hlen : ((s.tasks.filter (fun kv =>
        ¬ now - kv.2.updated_at > (max 5 cfg.ttlMinutes) * 60)).length ≤
          cfg.maxItems))
    (haddr : t.details < s.nextAddr)
    (hread : get_task cfg s id b now = (some v, s1)) :
    v.details = s.nextAddr
    ∧ ∀ l : List String,
        dget id (heapWrite s1 v.details l).tasks = some t
        ∧ hget t.details (heapWrite s1 v.details l).heap =
            hget t.details s.heap
        ∧ ∃ v' s2,
            get_task cfg (heapWrite s1 v.details l) id b now = (some v', s2)
            ∧ v'.status = v.status ∧ v'.progress = v.progress
            ∧ v'.message = v.message ∧ v'.owner_email = v.owner_email
            ∧ v'.created_at = v.created_at ∧ v'.updated_at = v.updated_at
            ∧ hget v'.details s2.heap = hget v.details s1.heap := by
  have hup : dget id (tm_cleanup cfg s now).tasks = some t :=
    dget_tm_cleanup_live cfg s now id t ht hexp hlen
  have hread2 : get_task cfg s id b now =
      (some { status := t.status, progress := t.progress,
              message := t.message,
              details := (tm_cleanup cfg s now).nextAddr,
              owner_email := if b then some t.owner_email else none,
              created_at := if b then some t.created_at else none,
              updated_at := if b then some t.updated_at else none },
       { tm_cleanup cfg s now with
           heap := dinsert (tm_cleanup cfg s now).nextAddr
             (hget t.details (tm_cleanup cfg s now).heap)
             (tm_cleanup cfg s now).heap,
           nextAddr := (tm_cleanup cfg s now).nextAddr + 1 }) := by
    simp only [get_task, hup]
  have hpair := hread.symm.trans hread2
  rw [Prod.mk.injEq] at hpair
  have hv := Option.some.inj hpair.1
  have hs1 := hpair.2
  have hsc_next : (tm_cleanup cfg s now).nextAddr = s.nextAddr :=
    tm_cleanup_nextAddr cfg s now
  have hsc_heap : (tm_cleanup cfg s now).heap = s.heap :=
    tm_cleanup_heap cfg s now
  have hvdet : v.details = s.nextAddr := by rw [hv, ← hsc_next]
  have htne : t.details ≠ s.nextAddr := Nat.ne_of_lt haddr
  refine ⟨hvdet, ?_⟩
  intro l
  -- names for the mutated state
  have hw_tasks : (heapWrite s1 v.details l).tasks =
      (tm_cleanup cfg s now).tasks := by rw [hs1]; rfl
  have hw_next : (heapWrite s1 v.details l).nextAddr = s.nextAddr + 1 := by
    rw [heapWrite, hs1, hsc_next]
  have hw_heap : (heapWrite s1 v.details l).heap =
      dinsert s.nextAddr l s1.heap := by
    rw [heapWrite, hvdet]
  have hs1_heap : s1.heap =
      dinsert s.nextAddr (hget t.details s.heap) s.heap := by
    rw [hs1, hsc_next, hsc_heap]
  have hstored : hget t.details s1.heap = hget t.details s.heap := by
    rw [hs1_heap, hget, dget_dinsert_ne _ _ _ _ htne, hget]
  have hget_w : dget id (heapWrite s1 v.details l).tasks = some t := by
    rw [hw_tasks]; exact hup
  have hstored_w : hget t.details (heapWrite s1 v.details l).heap =
      hget t.details s.heap := by
    rw [hw_heap, hget, dget_dinsert_ne _ _ _ _ htne, ← hget, hstored]
  refine ⟨hget_w, hstored_w, ?_⟩
  -- cleanup of the already-cleaned task map changes nothing
  have hfilter : (heapWrite s1 v.details l).tasks.filter
      (fun kv => ¬ now - kv.2.updated_at > (max 5 cfg.ttlMinutes) * 60) =
        (heapWrite s1 v.details l).tasks := by
    rw [List.filter_eq_self]
    intro kv hkv
    rw [hw_tasks] at hkv
    simpa using tm_cleanup_no_expired cfg s now kv hkv
  have hnd' : (keys (tm_cleanup cfg s now).tasks).Nodup :=
    ((tm_cleanup_tasks_sublist cfg s now).map Prod.fst).nodup hnd
  have hlen2 : ((heapWrite s1 v.details l).tasks.filter
      (fun kv => ¬ now - kv.2.updated_at > (max 5 cfg.ttlMinutes) * 60)).length
        ≤ cfg.maxItems := by
    rw [hfilter, hw_tasks]
    exact tm_cleanup_length cfg s now hnd
  have hup2 : dget id (tm_cleanup cfg (heapWrite s1 v.details l) now).tasks =
      some t :=
    dget_tm_cleanup_live cfg (heapWrite s1 v.details l) now id t hget_w hexp
      hlen2
  have hread3 : get_task cfg (heapWrite s1 v.details l) id b now =
      (some { status := t.status, progress := t.progress,
              message := t.message,
              details :=
                (tm_cleanup cfg (heapWrite s1 v.details l) now).nextAddr,
              owner_email := if b then some t.owner_email else none,
              created_at := if b then some t.created_at else none,
              updated_at := if b then some t.updated_at else none },
       { tm_cleanup cfg (heapWrite s1 v.details l) now with
           heap := dinsert
             (tm_cleanup cfg (heapWrite s1 v.details l) now).nextAddr
             (hget t.details
               (tm_cleanup cfg (heapWrite s1 v.details l) now).heap)
             (tm_cleanup cfg (heapWrite s1 v.details l) now).heap,
           nextAddr :=
             (tm_cleanup cfg (heapWrite s1 v.details l) now).nextAddr + 1 })
      := by
    simp only [get_task, hup2]
  have hsc2_next :
      (tm_cleanup cfg (heapWrite s1 v.details l) now).nextAddr =
        s.nextAddr + 1 := by
    rw [tm_cleanup_nextAddr, hw_next]
  have hsc2_heap : (tm_cleanup cfg (heapWrite s1 v.details l) now).heap =
      (heapWrite s1 v.details l).heap :=
    tm_cleanup_heap cfg (heapWrite s1 v.details l) now
  refine ⟨_, _, hread3, ?_, ?_, ?_, ?_, ?_, ?_, ?_⟩
  · rw [hv]
  · rw [hv]
  · rw [hv]
  · rw [hv]
  · rw [hv]
  · rw [hv]
  · -- both reads expose the stored details list
    have hR : hget v.details s1.heap = hget t.details s.heap := by
      rw [hvdet, hs1_heap, hget, dget_dinsert_self, Option.getD_some]
    have hL : hget (tm_cleanup cfg (heapWrite s1 v.details l) now).nextAddr
        (dinsert (tm_cleanup cfg (heapWrite s1 v.details l) now).nextAddr
          (hget t.details
            (tm_cleanup cfg (heapWrite s1 v.details l) now).heap)
          (tm_cleanup cfg (heapWrite s1 v.details l) now).heap) =
        hget t.details s.heap := by
      rw [hget, dget_dinsert_self, Option.getD_some, hsc2_heap, hw_heap,
        hget, dget_dinsert_ne _ _ _ _ htne, ← hget, hstored]
    exact hL.trans hR.symm

/-- C7 witness: a concrete read-mutate-reread trace on one task. -/
theorem C7_defensive_copy_witness :
    TaskView.details
      { status := "pending", progress := 0, message := "Init", details := 1,
        owner_email := some "a@b", created_at := some 0,
        updated_at := some 0 } = 1
    ∧ ∀ l : List String,
        dget "t1" (heapWrite
          ⟨[("t1", ⟨"pending", 0, "Init", 0, "a@b", 0, 0⟩)],
            [(0, ["d0"]), (1, ["d0"])], 2⟩ 1 l).tasks =
          some ⟨"pending", 0, "Init", 0, "a@b", 0, 0⟩
        ∧ hget 0 (heapWrite
            ⟨[("t1", ⟨"pending", 0, "Init", 0, "a@b", 0, 0⟩)],
              [(0, ["d0"]), (1, ["d0"])], 2⟩ 1 l).heap = hget 0
              [(0, ["d0"])]
        ∧ ∃ v' s2,
            get_task ⟨180, 2000, 100⟩ (heapWrite
              ⟨[("t1", ⟨"pending", 0, "Init", 0, "a@b", 0, 0⟩)],
                [(0, ["d0"]), (1, ["d0"])], 2⟩ 1 l) "t1" true 0 =
              (some v', s2)
            ∧ v'.status = "pending" ∧ v'.progress = 0
            ∧ v'.message = "Init" ∧ v'.owner_email = some "a@b"
            ∧ v'.created_at = some 0 ∧ v'.updated_at = some 0
            ∧ hget v'.details s2.heap = hget 1
                [(0, ["d0"]), (1, ["d0"])] := by
  have h := C7_defensive_copy ⟨180, 2000, 100⟩
    ⟨[("t1", ⟨"pending", 0, "Init", 0, "a@b", 0, 0⟩)], [(0, ["d0"])], 1⟩
    "t1" true 0 ⟨"pending", 0, "Init", 0, "a@b", 0, 0⟩
    { status := "pending", progress := 0, message := "Init", details := 1,
      owner_email := some "a@b", created_at := some 0, updated_at := some 0 }
    ⟨[("t1", ⟨"pending", 0, "Init", 0, "a@b", 0, 0⟩)],
      [(0, ["d0"]), (1, ["d0"])], 2⟩
    (by decide) (by decide) (by decide) (by decide) (by decide) (by decide)
  exact h

/-- C8: an unknown task id reads as `None` / 404; a non-privileged
`get_task` strips all owner-identifying fields; the status endpoint never
returns `owner_email` on success, and it does succeed (200, without the
owner field) for the owner and for an administrator. -/
theorem C8_owner_stripped :
    (∀ (cfg : TaskCfg) (s : TMState) (id : String) (b : Bool) (now : Time),
      dget id (tm_cleanup cfg s now).tasks = none →
      (get_task cfg s id b now).1 = none)
    ∧ (∀ (cfg : TaskCfg) (s : TMState) (id : String) (now : Time)
        (v : TaskView),
        (get_task cfg s id false now).1 = some v →
        v.owner_email = none ∧ v.created_at = none ∧ v.updated_at = none)
    ∧ (∀ (cfg : SecConfig) (tcfg : TaskCfg) (sec : SecState) (tm : TMState)
        (id : String) (user : JwtPayload) (ip : String) (now : Time)
        (view : TaskView) (sec' : SecState) (tm' : TMState),
        get_task_status cfg tcfg sec tm id user ip now =
          some (.ok view, sec', tm') →
        view.owner_email = none)
    ∧ (∀ (cfg : SecConfig) (tcfg : TaskCfg) (sec : SecState) (tm : TMState)
        (id : String) (user : JwtPayload) (ip : String) (now : Time),
        ddgetList (rateLimitKey "upload-status" user.email ip)
          sec.apiAttempts = [] →
        now - sec.lastCleanup < cfg.cleanupInterval →
        dget id (tm_cleanup tcfg tm now).tasks = none →
        ∃ sec1 tm1, get_task_status cfg tcfg sec tm id user ip now =
            some (.error .notFound, sec1, tm1)
          ∧ StatusErr.notFound.status = 404)
    ∧ (∀ (cfg : SecConfig) (tcfg : TaskCfg) (sec : SecState) (tm : TMState)
        (id : String) (user : JwtPayload) (ip : String) (now : Time)
        (t : TaskRec),
        ddgetList (rateLimitKey "upload-status" user.email ip)
          sec.apiAttempts = [] →
        now - sec.lastCleanup < cfg.cleanupInterval →
        dget id (tm_cleanup tcfg tm now).tasks = some t →
        (user.email = some t.owner_email ∨ user.role = some "admin") →
        ∃ view sec1 tm1,
          get_task_status cfg tcfg sec tm id user ip now =
            some (.ok view, sec1, tm1)
          ∧ view.owner_email = none) := by
  refine ⟨?_, ?_, ?_, ?_, ?_⟩
  · intro cfg s id b now h
    simp [get_task, h]
  · intro cfg s id now v hv
    cases hd : dget id (tm_cleanup cfg s now).tasks with
    | none =>
        have : (get_task cfg s id false now).1 = none := by
          simp [get_task, hd]
        rw [this] at hv
        cases hv
    | some t =>
        have : (get_task cfg s id false now).1 =
            some { status := t.status, progress := t.progress,
                   message := t.message,
                   details := (tm_cleanup cfg s now).nextAddr,
                   owner_email := none, created_at := none,
                   updated_at := none } := by
          simp [get_task, hd]
        rw [this] at hv
        have := Option.some.inj hv
        rw [← this]
        exact ⟨rfl, rfl, rfl⟩
  · intro cfg tcfg sec tm id user ip now view sec' tm' h
    unfold get_task_status at h
    rcases hc : check_sliding_window cfg sec
        (rateLimitKey "upload-status" user.email ip) (max 1 300) (max 1 60)
        now with _ | ⟨⟨allowed, retry⟩, sec1⟩
    · simp only [hc] at h
      cases h
    · simp only [hc] at h
      by_cases hall : allowed
      · simp only [hall, not_true, if_false, ite_false, Bool.not_true,
          Bool.false_eq_true, reduceIte] at h
        rcases hg : get_task tcfg tm id true now with ⟨ov, tm1⟩
        simp only [hg] at h
        cases ov with
        | none => simp at h
        | some view0 =>
            by_cases hcond : (user.role ≠ some "admin"
                ∧ view0.owner_email ≠ user.email)
            · simp [hcond] at h
            · simp only [hcond, if_false, reduceIte, Option.some.injEq,
                Prod.mk.injEq, Except.ok.injEq] at h
              rw [← h.1]
      · simp only [hall, Bool.not_false, Bool.false_eq_true, not_false_iff,
          if_true, reduceIte] at h
        simp at h
  · intro cfg tcfg sec tm id user ip now hkey hskip hnone
    have hchk := check_sliding_window_allowed cfg sec
      (rateLimitKey "upload-status" user.email ip) (max 1 300) (max 1 60)
      now [] [] hskip hkey rfl (by decide)
    refine ⟨SecState.mk sec.refreshStore sec.csrfStore sec.loginAttempts
      (dinsert (rateLimitKey "upload-status" user.email ip) ([] ++ [now])
        sec.apiAttempts) sec.lastCleanup, tm_cleanup tcfg tm now, ?_, rfl⟩
    simp only [get_task_status, hchk]
    rw [if_neg (by simp)]
    simp only [get_task, hnone]
  · intro cfg tcfg sec tm id user ip now t hkey hskip hup howner
    have hchk := check_sliding_window_allowed cfg sec
      (rateLimitKey "upload-status" user.email ip) (max 1 300) (max 1 60)
      now [] [] hskip hkey rfl (by decide)
    have hgt : get_task tcfg tm id true now =
        (some { status := t.status, progress := t.progress,
                message := t.message,
                details := (tm_cleanup tcfg tm now).nextAddr,
                owner_email := some t.owner_email,
                created_at := some t.created_at,
                updated_at := some t.updated_at },
         { tm_cleanup tcfg tm now with
             heap := dinsert (tm_cleanup tcfg tm now).nextAddr
               (hget t.details (tm_cleanup tcfg tm now).heap)
               (tm_cleanup tcfg tm now).heap,
             nextAddr := (tm_cleanup tcfg tm now).nextAddr + 1 }) := by
      simp [get_task, hup]
    have hcond : ¬ (user.role ≠ some "admin"
        ∧ (some t.owner_email : Option String) ≠ user.email) := by
      rcases howner with h | h
      · intro hc
        exact hc.2 h.symm
      · intro hc
        exact hc.1 h
    refine ⟨TaskView.mk t.status t.progress t.message
      (tm_cleanup tcfg tm now).nextAddr none (some t.created_at)
      (some t.updated_at),
      SecState.mk sec.refreshStore sec.csrfStore sec.loginAttempts
        (dinsert (rateLimitKey "upload-status" user.email ip) ([] ++ [now])
          sec.apiAttempts) sec.lastCleanup,
      TMState.mk (tm_cleanup tcfg tm now).tasks
        (dinsert (tm_cleanup tcfg tm now).nextAddr
          (hget t.details (tm_cleanup tcfg tm now).heap)
          (tm_cleanup tcfg tm now).heap)
        ((tm_cleanup tcfg tm now).nextAddr + 1), ?_, rfl⟩
    simp only [get_task_status, hchk]
    rw [if_neg (by simp)]
    simp only [hgt]
    rw [if_neg hcond]

/-- C8 witness: a concrete owner read succeeds without the owner field and
an unknown id yields 404. -/
theorem C8_owner_stripped_witness :
    (∃ view sec1 tm1,
      get_task_status ⟨5, 600, 100, 200, 100, 100, 30⟩ ⟨180, 2000, 100⟩
          ⟨[], [], [], [], 0⟩
          ⟨[("t1", ⟨"pending", 0, "Init", 0, "a@b", 0, 0⟩)], [(0, [])], 1⟩
          "t1" { email := some "a@b", exp := 100 } "1.2.3.4" 1 =
        some (.ok view, sec1, tm1)
      ∧ view.owner_email = none)
    ∧ (∃ sec1 tm1,
      get_task_status ⟨5, 600, 100, 200, 100, 100, 30⟩ ⟨180, 2000, 100⟩
          ⟨[], [], [], [], 0⟩
          ⟨[("t1", ⟨"pending", 0, "Init", 0, "a@b", 0, 0⟩)], [(0, [])], 1⟩
          "zzz" { email := some "a@b", exp := 100 } "1.2.3.4" 1 =
        some (.error .notFound, sec1, tm1)
      ∧ StatusErr.notFound.status = 404) :=
  ⟨C8_owner_stripped.2.2.2.2 ⟨5, 600, 100, 200, 100, 100, 30⟩
      ⟨180, 2000, 100⟩ ⟨[], [], [], [], 0⟩
      ⟨[("t1", ⟨"pending", 0, "Init", 0, "a@b", 0, 0⟩)], [(0, [])], 1⟩
      "t1" { email := some "a@b", exp := 100 } "1.2.3.4" 1
      ⟨"pending", 0, "Init", 0, "a@b", 0, 0⟩
      (by decide) (by decide) (by decide) (Or.inl (by decide)),
   C8_owner_stripped.2.2.2.1 ⟨5, 600, 100, 200, 100, 100, 30⟩
      ⟨180, 2000, 100⟩ ⟨[], [], [], [], 0⟩
      ⟨[("t1", ⟨"pending", 0, "Init", 0, "a@b", 0, 0⟩)], [(0, [])], 1⟩
      "zzz" { email := some "a@b", exp := 100 } "1.2.3.4" 1
      (by decide) (by decide) (by decide)⟩

end Honeypot
